import Mathlib

/-!
Verification development for the Multi_Manager window-automation core.

The definitions below are a shallow embedding of the Rust source:
`src/window_manager.rs` (hotkey matching and the workspace toggle engine)
and `src/window_bindings.rs` (binding capture / reconciliation).
Native Win32 calls (`IsWindow`, `GetWindowRect`, `SetWindowPos`,
`SetForegroundWindow`, `GetAsyncKeyState`) are modelled by an explicit
environment: liveness and position oracles on window handles, a success
oracle for moves, and a key-state oracle for the keyboard.
-/

namespace MultiManager

/-- A window rectangle `(x, y, width, height)`, the Rust `(i32, i32, i32, i32)`
tuple used for `home` and `target`. -/
structure Rect where
  x : Int
  y : Int
  w : Int
  h : Int
deriving DecidableEq, Repr

/-- One tracked native window, the Rust `Window` entry of a workspace
(modelled from the spec's data model; the struct lives in the `workspace`
module, its field set is fixed by every use in `window_manager.rs` and
`window_bindings.rs`): platform identifier `id` (`usize`), last known
`title`, `home` and `target` rectangles, and the `valid` flag. -/
structure Window where
  id : Nat
  title : String
  home : Rect
  target : Rect
  valid : Bool
deriving DecidableEq, Repr

/-- A workspace, the Rust `Workspace` (modelled from the spec's data model;
the struct lives in the `workspace` module): name, ordered window entries,
the `rotate` flag and the rotation cursor `current_index`. The `disabled`
and `hotkey` fields play no role in the functions verified here. -/
structure Workspace where
  name : String
  windows : List Window
  rotate : Bool
  current_index : Nat
deriving DecidableEq, Repr

/-- The modelled state of the native windowing system:
`live id` is `IsWindow`, `pos id` is the result of `GetWindowRect`
(`none` when the call fails), and `moveOk id r` tells whether the native
`SetWindowPos`-based move of window `id` to rectangle `r` succeeds. -/
structure OsState where
  live : Nat → Bool
  pos : Nat → Option Rect
  moveOk : Nat → Rect → Bool

/-- Embedding of `move_window` (window_manager.rs): on success the window's
rectangle becomes exactly the requested one; on failure the state is
unchanged and the error is reported to the caller. -/
def move_window (os : OsState) (id : Nat) (r : Rect) : OsState × Bool :=
  if os.moveOk id r then
    ({ os with pos := fun n => if n = id then some r else os.pos n }, true)
  else
    (os, false)

/-- Embedding of `is_window_at_position` (window_manager.rs): query the
current rectangle and compare all four components exactly; a failed query
yields `false`. -/
def is_window_at_position (os : OsState) (id : Nat) (r : Rect) : Bool :=
  match os.pos id with
  | some p => decide (p = r)
  | none => false

/-- Embedding of `are_all_windows_at_home` (window_manager.rs): every
window entry with `valid = true` must be a live window sitting exactly at
its `home` rectangle. -/
def are_all_windows_at_home (os : OsState) (ws : Workspace) : Bool :=
  (ws.windows.filter (fun w => w.valid)).all
    (fun w => os.live w.id && is_window_at_position os w.id w.home)

/-- One attempted move issued by the toggle engine: the window identifier,
the rectangle passed to `move_window`, and whether the move succeeded. -/
structure MoveAttempt where
  id : Nat
  rect : Rect
  ok : Bool
deriving DecidableEq, Repr

/-- The outcome of one `toggle_workspace_windows` call: the updated
windowing-system state, the updated workspace, the list of attempted
moves in program order, and the identifiers on which activation
(`SetForegroundWindow`) was attempted, in program order. -/
structure ToggleResult where
  os : OsState
  ws : Workspace
  moves : List MoveAttempt
  activated : List Nat

/-- The rotate-branch loop of `toggle_workspace_windows`
(window_manager.rs): enumerate the windows from index `i`; skip entries
whose handle is not live; move the window at index `tIdx` to `target` and
every other live window to `home`; attempt activation only for index
`tIdx`. -/
def toggle_rotate_loop (os : OsState) (i tIdx : Nat) :
    List Window → OsState × List MoveAttempt × List Nat
  | [] => (os, [], [])
  | w :: rest =>
    if os.live w.id then
      let position := if i = tIdx then w.target else w.home
      let m := move_window os w.id position
      let r := toggle_rotate_loop m.1 (i + 1) tIdx rest
      (r.1, ⟨w.id, position, m.2⟩ :: r.2.1,
        (if i = tIdx then [w.id] else []) ++ r.2.2)
    else
      toggle_rotate_loop os (i + 1) tIdx rest

/-- The non-rotate loop of `toggle_workspace_windows`
(window_manager.rs): skip entries whose handle is not live; move every
live window to `target` when `all_at_home` holds and to `home` otherwise;
attempt activation on every live window. -/
def toggle_home_loop (os : OsState) (all_at_home : Bool) :
    List Window → OsState × List MoveAttempt × List Nat
  | [] => (os, [], [])
  | w :: rest =>
    if os.live w.id then
      let target_position := if all_at_home then w.target else w.home
      let m := move_window os w.id target_position
      let r := toggle_home_loop m.1 all_at_home rest
      (r.1, ⟨w.id, target_position, m.2⟩ :: r.2.1, w.id :: r.2.2)
    else
      toggle_home_loop os all_at_home rest

/-- Embedding of `toggle_workspace_windows` (window_manager.rs). With the
`rotate` flag set and more than one window, the rotate loop runs with
`tIdx = current_index % len` and the cursor then advances to
`(current_index + 1) % len`; otherwise `all_at_home` is computed first and
the non-rotate loop runs, leaving the workspace record unchanged. -/
def toggle_workspace_windows (os : OsState) (ws : Workspace) : ToggleResult :=
  if ws.rotate && decide (ws.windows.length > 1) then
    let len := ws.windows.length
    let tIdx := ws.current_index % len
    let r := toggle_rotate_loop os 0 tIdx ws.windows
    ⟨r.1, { ws with current_index := (ws.current_index + 1) % len }, r.2.1, r.2.2⟩
  else
    let all_at_home := are_all_windows_at_home os ws
    let r := toggle_home_loop os all_at_home ws.windows
    ⟨r.1, ws, r.2.1, r.2.2⟩

/-- Iterating `toggle_workspace_windows`: `toggle_iter n` performs `n`
consecutive calls, threading the windowing-system state and the workspace
(hence the rotation cursor) through. -/
def toggle_iter : Nat → OsState → Workspace → OsState × Workspace
  | 0, os, ws => (os, ws)
  | n + 1, os, ws =>
    let r := toggle_workspace_windows os ws
    toggle_iter n r.os r.ws

/-- One persisted window record (window_bindings.rs
`WindowBindingSnapshot`): the window's index in its workspace, its title,
and its platform identifier at capture time. -/
structure WindowBindingSnapshot where
  window_index : Nat
  window_title : String
  hwnd : Nat
deriving DecidableEq, Repr

/-- One persisted workspace record (window_bindings.rs
`WorkspaceBindingSnapshot`): the workspace's index and name at capture
time plus its captured window records. -/
structure WorkspaceBindingSnapshot where
  workspace_index : Nat
  workspace_name : String
  windows : List WindowBindingSnapshot
deriving DecidableEq, Repr

/-- Statistics of one `apply_window_bindings` run (window_bindings.rs
`BindingApplicationStats`). -/
structure BindingApplicationStats where
  restored : Nat
  invalidated : Nat
  unmatched : Nat
deriving DecidableEq, Repr

/-- The inner window loop of `save_window_bindings` (window_bindings.rs):
walk the entries of one workspace with their enumeration index starting
at `k`; a live entry yields a record of its index, title and identifier;
a dead entry is skipped with a warning. -/
def capture_windows (live : Nat → Bool) (k : Nat) :
    List Window → List WindowBindingSnapshot
  | [] => []
  | w :: rest =>
    if live w.id then
      ⟨k, w.title, w.id⟩ :: capture_windows live (k + 1) rest
    else
      capture_windows live (k + 1) rest

/-- The outer loop of `save_window_bindings` (window_bindings.rs): walk the
workspaces with their enumeration index starting at `k`; a workspace with
no live windows is omitted entirely; the second component counts every
captured window record (the function's `saved_handles` return value). -/
def capture_workspaces (live : Nat → Bool) (k : Nat) :
    List Workspace → List WorkspaceBindingSnapshot × Nat
  | [] => ([], 0)
  | ws :: rest =>
    let wins := capture_windows live 0 ws.windows
    let r := capture_workspaces live (k + 1) rest
    (if wins.isEmpty then r.1 else ⟨k, ws.name, wins⟩ :: r.1,
      wins.length + r.2)

/-- Embedding of `save_window_bindings` (window_bindings.rs), minus the
JSON serialization to disk: the produced snapshot list and the number of
saved handles. -/
def save_window_bindings (live : Nat → Bool) (workspaces : List Workspace) :
    List WorkspaceBindingSnapshot × Nat :=
  capture_workspaces live 0 workspaces

/-- The workspace lookup of `apply_window_bindings` (window_bindings.rs):
accept the snapshot's stored index when it is in range and the workspace
there carries the snapshot's stored name; otherwise fall back to a linear
scan for the first workspace with a matching name. -/
def find_workspace_idx (workspaces : List Workspace)
    (b : WorkspaceBindingSnapshot) : Option Nat :=
  (match workspaces.get? b.workspace_index with
    | some ws =>
      if ws.name = b.workspace_name then some b.workspace_index else none
    | none => none).orElse
    (fun _ =>
      workspaces.findIdx? (fun (ws : Workspace) => ws.name == b.workspace_name))

/-- The window lookup of `apply_window_bindings` (window_bindings.rs):
when the stored window index is in range, keep it if the title there
matches, else rescan by title; when it is out of range, scan by title
directly. -/
def find_window_idx (windows : List Window)
    (b : WindowBindingSnapshot) : Option Nat :=
  match windows.get? b.window_index with
  | some w =>
    if w.title = b.window_title then some b.window_index
    else windows.findIdx? (fun v => v.title == b.window_title)
  | none => windows.findIdx? (fun v => v.title == b.window_title)

/-- The per-record body of `apply_window_bindings` (window_bindings.rs):
no matching entry counts `unmatched`; with a matching entry, a still-live
persisted identifier overwrites the entry's identifier and sets
`valid = true` (`restored`), and a dead one only clears `valid`
(`invalidated`), leaving the old identifier in place. -/
def apply_one (live : Nat → Bool) (windows : List Window)
    (stats : BindingApplicationStats) (b : WindowBindingSnapshot) :
    List Window × BindingApplicationStats :=
  match find_window_idx windows b with
  | none => (windows, { stats with unmatched := stats.unmatched + 1 })
  | some index =>
    match windows.get? index with
    | some w =>
      if live b.hwnd then
        (windows.set index { w with id := b.hwnd, valid := true },
          { stats with restored := stats.restored + 1 })
      else
        (windows.set index { w with valid := false },
          { stats with invalidated := stats.invalidated + 1 })
    | none => (windows, { stats with unmatched := stats.unmatched + 1 })

/-- The inner loop of `apply_window_bindings` over one snapshot's window
records, threading the workspace's window list and the statistics. -/
def apply_windows (live : Nat → Bool) :
    List Window → BindingApplicationStats → List WindowBindingSnapshot →
    List Window × BindingApplicationStats
  | windows, stats, [] => (windows, stats)
  | windows, stats, b :: rest =>
    let r := apply_one live windows stats b
    apply_windows live r.1 r.2 rest

/-- Processing of one snapshot by `apply_window_bindings`
(window_bindings.rs): when no workspace matches, every window record of
the snapshot counts `unmatched` and nothing is mutated; otherwise the
matched workspace's window list is rewritten by the inner loop. The
lookup always returns an in-range index, so the final arm is
unreachable. -/
def apply_snapshot (live : Nat → Bool) (workspaces : List Workspace)
    (stats : BindingApplicationStats) (b : WorkspaceBindingSnapshot) :
    List Workspace × BindingApplicationStats :=
  match find_workspace_idx workspaces b with
  | none =>
    (workspaces,
      { stats with unmatched := stats.unmatched + b.windows.length })
  | some wi =>
    match workspaces.get? wi with
    | some ws =>
      let r := apply_windows live ws.windows stats b.windows
      (workspaces.set wi { ws with windows := r.1 }, r.2)
    | none => (workspaces, stats)

/-- The outer loop of `apply_window_bindings` over the snapshot list. -/
def apply_snapshots (live : Nat → Bool) :
    List Workspace → BindingApplicationStats →
    List WorkspaceBindingSnapshot →
    List Workspace × BindingApplicationStats
  | workspaces, stats, [] => (workspaces, stats)
  | workspaces, stats, b :: rest =>
    let r := apply_snapshot live workspaces stats b
    apply_snapshots live r.1 r.2 rest

/-- Embedding of `apply_window_bindings` (window_bindings.rs): fold the
snapshots over the workspace list, starting from zeroed statistics. -/
def apply_window_bindings (live : Nat → Bool) (workspaces : List Workspace)
    (bindings : List WorkspaceBindingSnapshot) :
    List Workspace × BindingApplicationStats :=
  apply_snapshots live workspaces ⟨0, 0, 0⟩ bindings

/-- Strings of the hotkey code are modelled as lists of characters, so
that splitting and case folding compute by plain structural recursion. -/
abbrev Str := List Char

/-- Character-wise lower-casing, the Rust `to_lowercase` on the ASCII
tokens the hotkey code compares against. -/
def strToLower (s : Str) : Str := s.map Char.toLower

/-- Character-wise upper-casing, the Rust `to_uppercase` on the ASCII
key names of the virtual-key table. -/
def strToUpper (s : Str) : Str := s.map Char.toUpper

/-- Rust `split('+')`: empty tokens are preserved and the empty string
yields one empty token. -/
def splitOnPlus : Str → List Str
  | [] => [[]]
  | c :: rest =>
    match splitOnPlus rest with
    | [] => []
    | h :: t => if c = '+' then [] :: h :: t else (c :: h) :: t

/-- The key-name table of `virtual_key_from_string` (window_manager.rs),
as ordered (name, virtual-key code) pairs; the Rust `match` arms are
pairwise distinct string literals, so first-match lookup coincides with
it. -/
def key_table : List (Str × Nat) :=
  [("F1".toList, 0x70), ("F2".toList, 0x71), ("F3".toList, 0x72),
   ("F4".toList, 0x73), ("F5".toList, 0x74), ("F6".toList, 0x75),
   ("F7".toList, 0x76), ("F8".toList, 0x77), ("F9".toList, 0x78),
   ("F10".toList, 0x79), ("F11".toList, 0x7A), ("F12".toList, 0x7B),
   ("F13".toList, 0x7C), ("F14".toList, 0x7D), ("F15".toList, 0x7E),
   ("F16".toList, 0x7F), ("F17".toList, 0x80), ("F18".toList, 0x81),
   ("F19".toList, 0x82), ("F20".toList, 0x83), ("F21".toList, 0x84),
   ("F22".toList, 0x85), ("F23".toList, 0x86), ("F24".toList, 0x87),
   ("A".toList, 0x41), ("B".toList, 0x42), ("C".toList, 0x43),
   ("D".toList, 0x44), ("E".toList, 0x45), ("F".toList, 0x46),
   ("G".toList, 0x47), ("H".toList, 0x48), ("I".toList, 0x49),
   ("J".toList, 0x4A), ("K".toList, 0x4B), ("L".toList, 0x4C),
   ("M".toList, 0x4D), ("N".toList, 0x4E), ("O".toList, 0x4F),
   ("P".toList, 0x50), ("Q".toList, 0x51), ("R".toList, 0x52),
   ("S".toList, 0x53), ("T".toList, 0x54), ("U".toList, 0x55),
   ("V".toList, 0x56), ("W".toList, 0x57), ("X".toList, 0x58),
   ("Y".toList, 0x59), ("Z".toList, 0x5A),
   ("0".toList, 0x30), ("1".toList, 0x31), ("2".toList, 0x32),
   ("3".toList, 0x33), ("4".toList, 0x34), ("5".toList, 0x35),
   ("6".toList, 0x36), ("7".toList, 0x37), ("8".toList, 0x38),
   ("9".toList, 0x39),
   ("NUMPAD0".toList, 0x60), ("NUMPAD1".toList, 0x61),
   ("NUMPAD2".toList, 0x62), ("NUMPAD3".toList, 0x63),
   ("NUMPAD4".toList, 0x64), ("NUMPAD5".toList, 0x65),
   ("NUMPAD6".toList, 0x66), ("NUMPAD7".toList, 0x67),
   ("NUMPAD8".toList, 0x68), ("NUMPAD9".toList, 0x69),
   ("NUMPADMULTIPLY".toList, 0x6A), ("NUMPADADD".toList, 0x6B),
   ("NUMPADSEPARATOR".toList, 0x6C), ("NUMPADSUBTRACT".toList, 0x6D),
   ("NUMPADDOT".toList, 0x6E), ("NUMPADDIVIDE".toList, 0x6F),
   ("UP".toList, 0x26), ("DOWN".toList, 0x28), ("LEFT".toList, 0x25),
   ("RIGHT".toList, 0x27),
   ("BACKSPACE".toList, 0x08), ("TAB".toList, 0x09),
   ("ENTER".toList, 0x0D), ("SHIFT".toList, 0x10),
   ("CTRL".toList, 0x11), ("ALT".toList, 0x12), ("PAUSE".toList, 0x13),
   ("CAPSLOCK".toList, 0x14), ("ESCAPE".toList, 0x1B),
   ("SPACE".toList, 0x20), ("PAGEUP".toList, 0x21),
   ("PAGEDOWN".toList, 0x22), ("END".toList, 0x23),
   ("HOME".toList, 0x24), ("INSERT".toList, 0x2D),
   ("DELETE".toList, 0x2E),
   ("OEM_PLUS".toList, 0xBB), ("OEM_COMMA".toList, 0xBC),
   ("OEM_MINUS".toList, 0xBD), ("OEM_PERIOD".toList, 0xBE),
   ("OEM_1".toList, 0xBA), ("OEM_2".toList, 0xBF),
   ("OEM_3".toList, 0xC0), ("OEM_4".toList, 0xDB),
   ("OEM_5".toList, 0xDC), ("OEM_6".toList, 0xDD),
   ("OEM_7".toList, 0xDE),
   ("PRINTSCREEN".toList, 0x2C), ("SCROLLLOCK".toList, 0x91),
   ("NUMLOCK".toList, 0x90), ("LEFTSHIFT".toList, 0xA0),
   ("RIGHTSHIFT".toList, 0xA1), ("LEFTCTRL".toList, 0xA2),
   ("RIGHTCTRL".toList, 0xA3), ("LEFTALT".toList, 0xA4),
   ("RIGHTALT".toList, 0xA5)]

/-- Embedding of `virtual_key_from_string` (window_manager.rs): match the
upper-cased token against the key-name table, `none` when unrecognized. -/
def virtual_key_from_string (key : Str) : Option Nat :=
  (key_table.find? (fun p => p.1 == strToUpper key)).map (fun p => p.2)

/-- The running state of the token loop in `is_hotkey_pressed`:
the accumulated modifier conjunction and the last primary-key lookup. -/
structure HkAcc where
  modifiers_pressed : Bool
  vk_code : Option Nat
deriving DecidableEq, Repr

/-- One token step of `is_hotkey_pressed` (window_manager.rs): the four
modifier names (case-insensitive) AND the corresponding key state into
the accumulator (`win` accepts either Win key); any other token is looked
up as the primary key, overwriting the previous lookup result. The
key-state oracle `ks vk` models `GetAsyncKeyState(vk) < 0`. -/
def hkStep (ks : Nat → Bool) (acc : HkAcc) (part : Str) : HkAcc :=
  let l := strToLower part
  if l = "ctrl".toList then
    { acc with modifiers_pressed := acc.modifiers_pressed && ks 0x11 }
  else if l = "alt".toList then
    { acc with modifiers_pressed := acc.modifiers_pressed && ks 0x12 }
  else if l = "shift".toList then
    { acc with modifiers_pressed := acc.modifiers_pressed && ks 0x10 }
  else if l = "win".toList then
    { acc with modifiers_pressed :=
        acc.modifiers_pressed && (ks 0x5B || ks 0x5C) }
  else
    { acc with vk_code := virtual_key_from_string part }

/-- Embedding of `is_hotkey_pressed` (window_manager.rs): split the chord
on `'+'`, run the token loop, and require every listed modifier and the
resolved primary key to be down; an unresolved primary key yields
`false`. -/
def is_hotkey_pressed (ks : Nat → Bool) (key_sequence : Str) : Bool :=
  let acc := (splitOnPlus key_sequence).foldl (hkStep ks) ⟨true, none⟩
  match acc.vk_code with
  | some vk => acc.modifiers_pressed && ks vk
  | none => false

/-- Written to the spec's words, for comparison with the code: a listed
modifier token is down when its virtual keys are down (`win` satisfied by
either Win key); a token that is no modifier name constrains nothing. -/
def specModifierDown (ks : Nat → Bool) (m : Str) : Bool :=
  let l := strToLower m
  if l = "ctrl".toList then ks 0x11
  else if l = "alt".toList then ks 0x12
  else if l = "shift".toList then ks 0x10
  else if l = "win".toList then ks 0x5B || ks 0x5C
  else true

/-- Written to the spec's words, for comparison with the code: the
virtual keys a modifier token reads (`win` reads both Win keys). -/
def specModifierKeys (m : Str) : List Nat :=
  let l := strToLower m
  if l = "ctrl".toList then [0x11]
  else if l = "alt".toList then [0x12]
  else if l = "shift".toList then [0x10]
  else if l = "win".toList then [0x5B, 0x5C]
  else []

/-- Written to the spec's words, for comparison with the code: the set of
virtual keys a chord of modifier tokens plus one primary key token
reads. -/
def specChordKeys (mods : List Str) (keyTok : Str) : List Nat :=
  (mods.map specModifierKeys).flatten ++
    (match virtual_key_from_string keyTok with
      | some vk => [vk]
      | none => [])

/-- The fields of a window entry that `apply_window_bindings` must never
change: title, home rectangle and target rectangle (everything except the
identifier and the `valid` flag). -/
def windowSkeleton (w : Window) : String × Rect × Rect :=
  (w.title, w.home, w.target)

/-- The fields of a workspace that `apply_window_bindings` must never
change: name, rotate flag, cursor, and the skeleton of every window entry
in order. -/
def workspaceSkeleton (ws : Workspace) :
    String × Bool × Nat × List (String × Rect × Rect) :=
  (ws.name, ws.rotate, ws.current_index, ws.windows.map windowSkeleton)

/-- Written to the spec's words, for comparison with the code: the
expected effect of a capture/apply round trip on one workspace — every
window entry whose identifier is live gets `valid := true`, everything
else is untouched. -/
def revalidate (live : Nat → Bool) (ws : Workspace) : Workspace :=
  { ws with windows := (ws.windows.map
      (fun w => if live w.id then { w with valid := true } else w)) }

/-- A chord token the hotkey loop treats as a modifier name:
case-insensitively `ctrl`, `alt`, `shift` or `win`. -/
def IsModifierToken (m : Str) : Prop :=
  strToLower m = "ctrl".toList ∨ strToLower m = "alt".toList ∨
    strToLower m = "shift".toList ∨ strToLower m = "win".toList

instance : DecidablePred IsModifierToken := fun m => by
  unfold IsModifierToken; infer_instance

lemma hkStep_modifier (ks : Nat → Bool) (acc : HkAcc) (m : Str)
    (hm : IsModifierToken m) :
    hkStep ks acc m =
      ⟨acc.modifiers_pressed && specModifierDown ks m, acc.vk_code⟩ := by
  rcases hm with h | h | h | h <;>
    simp [hkStep, specModifierDown, h]

lemma hkStep_key (ks : Nat → Bool) (acc : HkAcc) (k : Str)
    (hk : ¬ IsModifierToken k) :
    hkStep ks acc k =
      ⟨acc.modifiers_pressed, virtual_key_from_string k⟩ := by
  obtain ⟨h1, h2, h3, h4⟩ :=
    (by simpa [IsModifierToken, not_or] using hk :
      strToLower k ≠ "ctrl".toList ∧ strToLower k ≠ "alt".toList ∧
        strToLower k ≠ "shift".toList ∧ strToLower k ≠ "win".toList)
  simp only [hkStep]
  rw [if_neg h1, if_neg h2, if_neg h3, if_neg h4]

lemma hk_fold_modifiers (ks : Nat → Bool) (mods : List Str) (acc : HkAcc)
    (h : ∀ m ∈ mods, IsModifierToken m) :
    mods.foldl (hkStep ks) acc =
      ⟨acc.modifiers_pressed && mods.all (specModifierDown ks),
        acc.vk_code⟩ := by
  induction mods generalizing acc with
  | nil => simp
  | cons m rest ih =>
    rw [List.foldl_cons, hkStep_modifier ks acc m (h m (by simp)),
      ih _ (fun x hx => h x (by simp [hx]))]
    simp [Bool.and_assoc]

lemma is_hotkey_pressed_char (ks : Nat → Bool) (mods : List Str)
    (keyTok seq : Str)
    (hsplit : splitOnPlus seq = mods ++ [keyTok])
    (hmods : ∀ m ∈ mods, IsModifierToken m)
    (hkey : ¬ IsModifierToken keyTok) :
    is_hotkey_pressed ks seq =
      (match virtual_key_from_string keyTok with
        | some vk => mods.all (specModifierDown ks) && ks vk
        | none => false) := by
  unfold is_hotkey_pressed
  rw [hsplit, List.foldl_append, hk_fold_modifiers ks mods _ hmods,
    List.foldl_cons, List.foldl_nil, hkStep_key ks _ keyTok hkey]
  cases hvk : virtual_key_from_string keyTok <;> simp

lemma list_all_congr {α : Type} (l : List α) (f g : α → Bool)
    (h : ∀ x ∈ l, f x = g x) : l.all f = l.all g := by
  induction l with
  | nil => rfl
  | cons x rest ih =>
    simp only [List.all_cons]
    rw [h x (by simp), ih (fun y hy => h y (by simp [hy]))]

lemma specModifierKeys_subset_chord (mods : List Str) (keyTok : Str)
    (m : Str) (hm : m ∈ mods) :
    ∀ k ∈ specModifierKeys m, k ∈ specChordKeys mods keyTok := by
  intro k hk
  unfold specChordKeys
  exact List.mem_append_left _
    (List.mem_flatten.mpr ⟨specModifierKeys m,
      List.mem_map_of_mem _ hm, hk⟩)

/-- C8: for every chord made of modifier tokens (`Ctrl`, `Alt`, `Shift`,
`Win`, case-insensitive) joined by `'+'` with one primary key token,
`is_hotkey_pressed` returns `true` iff every listed modifier is down
(`Win` satisfied by either Win key) and the primary key is down; the
result depends only on the state of exactly those keys; and an
unrecognized primary key token yields `false` regardless of key state. -/
theorem hotkey_chord_pressed_spec (ks : Nat → Bool) (mods : List Str)
    (keyTok seq : Str)
    (hsplit : splitOnPlus seq = mods ++ [keyTok])
    (hmods : ∀ m ∈ mods, IsModifierToken m)
    (hkey : ¬ IsModifierToken keyTok) :
    (∀ vk, virtual_key_from_string keyTok = some vk →
      (is_hotkey_pressed ks seq = true ↔
        (∀ m ∈ mods, specModifierDown ks m = true) ∧ ks vk = true))
    ∧ (virtual_key_from_string keyTok = none →
        is_hotkey_pressed ks seq = false)
    ∧ (∀ ks₂ : Nat → Bool,
        (∀ k ∈ specChordKeys mods keyTok, ks k = ks₂ k) →
        is_hotkey_pressed ks seq = is_hotkey_pressed ks₂ seq) := by
  have hchar := is_hotkey_pressed_char ks mods keyTok seq hsplit hmods hkey
  refine ⟨?_, ?_, ?_⟩
  · intro vk hvk
    rw [hchar, hvk]
    simp [List.all_eq_true]
  · intro hvk
    rw [hchar, hvk]
  · intro ks₂ hagree
    have hchar₂ := is_hotkey_pressed_char ks₂ mods keyTok seq hsplit hmods hkey
    rw [hchar, hchar₂]
    have hall : mods.all (specModifierDown ks) =
        mods.all (specModifierDown ks₂) := by
      have hmod_eq : ∀ m ∈ mods,
          specModifierDown ks m = specModifierDown ks₂ m := by
        intro m hm
        have hkeys := specModifierKeys_subset_chord mods keyTok m hm
        rcases hmods m hm with h | h | h | h <;>
          simp only [specModifierDown, specModifierKeys, h] at hkeys ⊢ <;>
          simp at hkeys ⊢
        · exact hagree 0x11 (by simpa using hkeys)
        · exact hagree 0x12 (by simpa using hkeys)
        · exact hagree 0x10 (by simpa using hkeys)
        · obtain ⟨hL, hR⟩ := hkeys
          rw [hagree 0x5B (by simpa using hL), hagree 0x5C (by simpa using hR)]
      exact list_all_congr mods _ _ hmod_eq
    cases hvk : virtual_key_from_string keyTok with
    | none => rfl
    | some vk =>
      have hvkmem : vk ∈ specChordKeys mods keyTok := by
        unfold specChordKeys
        rw [hvk]
        exact List.mem_append_right _ (by simp)
      simp only [hall, hagree vk hvkmem]

/-- Witness for C8 at the concrete chord `Ctrl+H` with Ctrl and H (and
nothing else) held down. -/
theorem hotkey_chord_pressed_spec_witness :
    is_hotkey_pressed (fun k => decide (k = 0x11) || decide (k = 0x48))
      "Ctrl+H".toList = true := by
  have h := hotkey_chord_pressed_spec
    (fun k => decide (k = 0x11) || decide (k = 0x48))
    ["Ctrl".toList] "H".toList "Ctrl+H".toList
    (by decide) (by decide) (by decide)
  exact (h.1 0x48 (by decide)).mpr (by decide)

lemma move_window_live (os : OsState) (id : Nat) (r : Rect) :
    (move_window os id r).1.live = os.live := by
  unfold move_window; split <;> rfl

lemma move_window_moveOk (os : OsState) (id : Nat) (r : Rect) :
    (move_window os id r).1.moveOk = os.moveOk := by
  unfold move_window; split <;> rfl

lemma move_window_snd (os : OsState) (id : Nat) (r : Rect) :
    (move_window os id r).2 = os.moveOk id r := by
  unfold move_window; split <;> simp [*]

lemma move_window_pos_self (os : OsState) (id : Nat) (r : Rect)
    (h : os.moveOk id r = true) :
    (move_window os id r).1.pos id = some r := by
  unfold move_window; rw [if_pos h]; simp

lemma move_window_pos_other (os : OsState) (id : Nat) (r : Rect)
    (n : Nat) (hn : n ≠ id) :
    (move_window os id r).1.pos n = os.pos n := by
  unfold move_window; split <;> simp [hn]

lemma toggle_home_loop_live (a : Bool) (windows : List Window) :
    ∀ os : OsState, (toggle_home_loop os a windows).1.live = os.live := by
  induction windows with
  | nil => intro os; rfl
  | cons v rest ih =>
    intro os
    unfold toggle_home_loop
    split
    · rw [ih]; exact move_window_live os v.id _
    · exact ih os

lemma toggle_home_loop_moveOk (a : Bool) (windows : List Window) :
    ∀ os : OsState, (toggle_home_loop os a windows).1.moveOk = os.moveOk := by
  induction windows with
  | nil => intro os; rfl
  | cons v rest ih =>
    intro os
    unfold toggle_home_loop
    split
    · rw [ih]; exact move_window_moveOk os v.id _
    · exact ih os

lemma toggle_home_loop_mem (a : Bool) (windows : List Window) :
    ∀ os : OsState, ∀ w ∈ windows, os.live w.id = true →
      (∃ ok, MoveAttempt.mk w.id (if a then w.target else w.home) ok ∈
        (toggle_home_loop os a windows).2.1) ∧
      w.id ∈ (toggle_home_loop os a windows).2.2 := by
  induction windows with
  | nil => intro os w hw; simp at hw
  | cons v rest ih =>
    intro os w hw hlive
    unfold toggle_home_loop
    rcases List.mem_cons.mp hw with hv | hr
    · subst hv
      rw [if_pos hlive]
      exact ⟨⟨(move_window os w.id (if a then w.target else w.home)).2,
        by simp⟩, by simp⟩
    · split
      · have hlive2 : (move_window os v.id
            (if a then v.target else v.home)).1.live w.id = true := by
          rw [move_window_live]; exact hlive
        obtain ⟨⟨ok, hok⟩, hact⟩ := ih _ w hr hlive2
        exact ⟨⟨ok, by simp [hok]⟩, by simp [hact]⟩
      · exact ih os w hr hlive

lemma toggle_home_loop_pos_untouched (a : Bool) (windows : List Window) :
    ∀ os : OsState, ∀ n : Nat, (∀ w ∈ windows, w.id ≠ n) →
      (toggle_home_loop os a windows).1.pos n = os.pos n := by
  induction windows with
  | nil => intro os n _; rfl
  | cons v rest ih =>
    intro os n hn
    unfold toggle_home_loop
    split
    · rw [ih _ n (fun w hw => hn w (by simp [hw])),
        move_window_pos_other _ _ _ n (fun h => hn v (by simp) h.symm)]
    · exact ih os n (fun w hw => hn w (by simp [hw]))

lemma toggle_home_loop_pos (a : Bool) (windows : List Window) :
    ∀ os : OsState, (∀ id r, os.moveOk id r = true) →
      (windows.map Window.id).Nodup →
      ∀ w ∈ windows, os.live w.id = true →
        (toggle_home_loop os a windows).1.pos w.id =
          some (if a then w.target else w.home) := by
  induction windows with
  | nil => intro os _ _ w hw; simp at hw
  | cons v rest ih =>
    intro os hmove hnodup w hw hlive
    have hnodup' : (rest.map Window.id).Nodup :=
      (List.nodup_cons.mp (by simpa using hnodup)).2
    rcases List.mem_cons.mp hw with hv | hr
    · subst hv
      unfold toggle_home_loop
      rw [if_pos hlive]
      have hnotin : ∀ u ∈ rest, u.id ≠ w.id := by
        intro u hu he
        exact (List.nodup_cons.mp (by simpa using hnodup)).1
          (he ▸ List.mem_map_of_mem Window.id hu)
      rw [toggle_home_loop_pos_untouched a rest _ w.id hnotin]
      exact move_window_pos_self os w.id _ (hmove _ _)
    · unfold toggle_home_loop
      split
      · refine ih _ ?_ hnodup' w hr ?_
        · rw [move_window_moveOk]; exact hmove
        · rw [move_window_live]; exact hlive
      · exact ih os hmove hnodup' w hr hlive

lemma toggle_rotate_loop_live (tIdx : Nat) (windows : List Window) :
    ∀ (os : OsState) (i : Nat),
      (toggle_rotate_loop os i tIdx windows).1.live = os.live := by
  induction windows with
  | nil => intro os i; rfl
  | cons v rest ih =>
    intro os i
    unfold toggle_rotate_loop
    split
    · rw [ih]; exact move_window_live os v.id _
    · exact ih os (i + 1)

lemma toggle_rotate_loop_moveOk (tIdx : Nat) (windows : List Window) :
    ∀ (os : OsState) (i : Nat),
      (toggle_rotate_loop os i tIdx windows).1.moveOk = os.moveOk := by
  induction windows with
  | nil => intro os i; rfl
  | cons v rest ih =>
    intro os i
    unfold toggle_rotate_loop
    split
    · rw [ih]; exact move_window_moveOk os v.id _
    · exact ih os (i + 1)

lemma toggle_rotate_loop_moves (tIdx : Nat) (windows : List Window) :
    ∀ (os : OsState) (i : Nat), (∀ w ∈ windows, os.live w.id = true) →
      (toggle_rotate_loop os i tIdx windows).2.1 =
        (windows.enumFrom i).map (fun p =>
          ⟨p.2.id, if p.1 = tIdx then p.2.target else p.2.home,
            os.moveOk p.2.id
              (if p.1 = tIdx then p.2.target else p.2.home)⟩) := by
  induction windows with
  | nil => intro os i _; rfl
  | cons v rest ih =>
    intro os i hlive
    unfold toggle_rotate_loop
    rw [if_pos (hlive v (by simp))]
    have hrest := ih (move_window os v.id
        (if i = tIdx then v.target else v.home)).1 (i + 1)
      (fun w hw => by rw [move_window_live]; exact hlive w (by simp [hw]))
    rw [move_window_moveOk] at hrest
    simp only [List.enumFrom, List.map_cons]
    rw [hrest, move_window_snd]

lemma toggle_rotate_loop_acts (tIdx : Nat) (windows : List Window) :
    ∀ (os : OsState) (i : Nat), (∀ w ∈ windows, os.live w.id = true) →
      (toggle_rotate_loop os i tIdx windows).2.2 =
        (if i ≤ tIdx then
          (match windows.get? (tIdx - i) with
            | some w => [w.id]
            | none => [])
        else []) := by
  induction windows with
  | nil =>
    intro os i _
    cases Nat.decLe i tIdx with
    | _ h => simp [toggle_rotate_loop]
  | cons v rest ih =>
    intro os i hlive
    unfold toggle_rotate_loop
    rw [if_pos (hlive v (by simp))]
    have hrest := ih (move_window os v.id
        (if i = tIdx then v.target else v.home)).1 (i + 1)
      (fun w hw => by rw [move_window_live]; exact hlive w (by simp [hw]))
    dsimp only
    rw [hrest]
    by_cases hi : i = tIdx
    · subst hi
      rw [if_pos rfl, if_neg (by omega), if_pos (Nat.le_refl i)]
      simp
    · rw [if_neg hi]
      by_cases hle : i ≤ tIdx
      · have hlt : i < tIdx := Nat.lt_of_le_of_ne hle hi
        rw [if_pos (show i + 1 ≤ tIdx from hlt), if_pos hle]
        obtain ⟨k, hk⟩ : ∃ k, tIdx - i = k + 1 :=
          ⟨tIdx - i - 1, (Nat.succ_pred_eq_of_pos (by omega)).symm⟩
        rw [hk]
        have hk2 : tIdx - (i + 1) = k := by omega
        rw [hk2]
        simp
      · rw [if_neg (show ¬ i + 1 ≤ tIdx by omega), if_neg hle]
        simp

lemma is_window_at_position_iff (os : OsState) (id : Nat) (r : Rect) :
    is_window_at_position os id r = true ↔ os.pos id = some r := by
  unfold is_window_at_position
  cases h : os.pos id <;> simp

lemma all_at_home_iff (os : OsState) (ws : Workspace) :
    are_all_windows_at_home os ws = true ↔
      ∀ w ∈ ws.windows, w.valid = true →
        os.live w.id = true ∧ os.pos w.id = some w.home := by
  unfold are_all_windows_at_home
  simp only [List.all_eq_true, List.mem_filter, Bool.and_eq_true,
    is_window_at_position_iff, and_imp]

lemma toggle_cond_false (ws : Workspace)
    (hnr : ¬ (ws.rotate = true ∧ 1 < ws.windows.length)) :
    (ws.rotate && decide (ws.windows.length > 1)) = false := by
  by_cases hr : ws.rotate = true
  · have hlen : ¬ 1 < ws.windows.length := fun h => hnr ⟨hr, h⟩
    simp [hr, hlen]
  · rw [Bool.not_eq_true] at hr
    simp [hr]

/-- C1: for a non-rotate workspace (rotate unset or at most one window),
`toggle_workspace_windows` computes `all_at_home` true iff every
`valid = true` entry is a live window sitting exactly at its home
rectangle (a dead window sits nowhere); invalid entries have no effect on
the computation; when `all_at_home` holds, every valid window is moved to
its target rectangle and activated, otherwise every valid window is moved
to its home rectangle and activated. -/
theorem toggle_non_rotate_spec (os : OsState) (ws : Workspace)
    (hnr : ¬ (ws.rotate = true ∧ 1 < ws.windows.length))
    (hvalid : ∀ w ∈ ws.windows, w.valid = true → os.live w.id = true) :
    (are_all_windows_at_home os ws = true ↔
      ∀ w ∈ ws.windows, w.valid = true →
        os.live w.id = true ∧ os.pos w.id = some w.home)
    ∧ (∀ v : Window, v.valid = false →
        are_all_windows_at_home os { ws with windows := v :: ws.windows } =
          are_all_windows_at_home os ws)
    ∧ (are_all_windows_at_home os ws = true →
        ∀ w ∈ ws.windows, w.valid = true →
          (∃ ok, MoveAttempt.mk w.id w.target ok ∈
            (toggle_workspace_windows os ws).moves) ∧
          w.id ∈ (toggle_workspace_windows os ws).activated)
    ∧ (are_all_windows_at_home os ws = false →
        ∀ w ∈ ws.windows, w.valid = true →
          (∃ ok, MoveAttempt.mk w.id w.home ok ∈
            (toggle_workspace_windows os ws).moves) ∧
          w.id ∈ (toggle_workspace_windows os ws).activated) := by
  have hcond := toggle_cond_false ws hnr
  refine ⟨all_at_home_iff os ws, ?_, ?_, ?_⟩
  · intro v hv
    unfold are_all_windows_at_home
    simp [List.filter_cons, hv]
  · intro hA w hw hwv
    unfold toggle_workspace_windows
    rw [if_neg (by simp [hcond]), hA]
    have h := toggle_home_loop_mem true ws.windows os w hw (hvalid w hw hwv)
    simpa using h
  · intro hA w hw hwv
    unfold toggle_workspace_windows
    rw [if_neg (by simp [hcond]), hA]
    have h := toggle_home_loop_mem false ws.windows os w hw (hvalid w hw hwv)
    simpa using h

/-- Witness for C1: one valid live window at home `(0,0,400,300)` with
target `(500,500,400,300)`; the toggle issues a move of that window to
the target rectangle and activates it. -/
theorem toggle_non_rotate_spec_witness :
    (∃ ok, MoveAttempt.mk 1 ⟨500, 500, 400, 300⟩ ok ∈
      (toggle_workspace_windows
        ⟨fun id => decide (id = 1),
          fun id => if id = 1 then some ⟨0, 0, 400, 300⟩ else none,
          fun _ _ => true⟩
        ⟨"W", [⟨1, "w", ⟨0, 0, 400, 300⟩, ⟨500, 500, 400, 300⟩, true⟩],
          false, 0⟩).moves) ∧
    1 ∈ (toggle_workspace_windows
      ⟨fun id => decide (id = 1),
        fun id => if id = 1 then some ⟨0, 0, 400, 300⟩ else none,
        fun _ _ => true⟩
      ⟨"W", [⟨1, "w", ⟨0, 0, 400, 300⟩, ⟨500, 500, 400, 300⟩, true⟩],
        false, 0⟩).activated := by
  have h := toggle_non_rotate_spec
    ⟨fun id => decide (id = 1),
      fun id => if id = 1 then some ⟨0, 0, 400, 300⟩ else none,
      fun _ _ => true⟩
    ⟨"W", [⟨1, "w", ⟨0, 0, 400, 300⟩, ⟨500, 500, 400, 300⟩, true⟩],
      false, 0⟩
    (by decide) (by decide)
  exact h.2.2.1 (by decide)
    ⟨1, "w", ⟨0, 0, 400, 300⟩, ⟨500, 500, 400, 300⟩, true⟩
    (by simp) rfl

/-- C7: for a non-rotate workspace under the liveness invariant, with all
moves succeeding, distinct window identifiers and target rectangles
differing from home: starting with every valid window exactly at home,
one toggle leaves every valid window at its target rectangle and a second
toggle returns every valid window to its home rectangle; starting from
any mixed geometry (`all_at_home` false), a single toggle always yields
home geometry for all valid windows. -/
theorem toggle_geometry_round_trip (os : OsState) (ws : Workspace)
    (hnr : ¬ (ws.rotate = true ∧ 1 < ws.windows.length))
    (hvalid : ∀ w ∈ ws.windows, w.valid = true → os.live w.id = true)
    (hmove : ∀ id r, os.moveOk id r = true)
    (hnodup : (ws.windows.map Window.id).Nodup)
    (htarget : ∀ w ∈ ws.windows, w.valid = true → w.target ≠ w.home) :
    ((∀ w ∈ ws.windows, w.valid = true → os.pos w.id = some w.home) →
      (∀ w ∈ ws.windows, w.valid = true →
        (toggle_workspace_windows os ws).os.pos w.id = some w.target) ∧
      (∀ w ∈ ws.windows, w.valid = true →
        (toggle_workspace_windows (toggle_workspace_windows os ws).os
          (toggle_workspace_windows os ws).ws).os.pos w.id = some w.home))
    ∧ (are_all_windows_at_home os ws = false →
        ∀ w ∈ ws.windows, w.valid = true →
          (toggle_workspace_windows os ws).os.pos w.id = some w.home) := by
  have hcond := toggle_cond_false ws hnr
  have hbranch : toggle_workspace_windows os ws =
      ⟨(toggle_home_loop os (are_all_windows_at_home os ws) ws.windows).1,
        ws,
        (toggle_home_loop os (are_all_windows_at_home os ws) ws.windows).2.1,
        (toggle_home_loop os (are_all_windows_at_home os ws) ws.windows).2.2⟩ := by
    unfold toggle_workspace_windows
    rw [if_neg (by simp [hcond])]
  constructor
  · intro hhome
    have hA : are_all_windows_at_home os ws = true :=
      (all_at_home_iff os ws).mpr
        (fun w hw hv => ⟨hvalid w hw hv, hhome w hw hv⟩)
    have hpos1 : ∀ w ∈ ws.windows, w.valid = true →
        (toggle_workspace_windows os ws).os.pos w.id = some w.target := by
      intro w hw hv
      rw [hbranch]
      dsimp only
      rw [hA]
      simpa using toggle_home_loop_pos true ws.windows os hmove hnodup
        w hw (hvalid w hw hv)
    refine ⟨hpos1, ?_⟩
    have hlive₁ : (toggle_workspace_windows os ws).os.live = os.live := by
      rw [hbranch]; exact toggle_home_loop_live _ _ _
    have hmoveOk₁ : (toggle_workspace_windows os ws).os.moveOk =
        os.moveOk := by
      rw [hbranch]; exact toggle_home_loop_moveOk _ _ _
    have hws₁ : (toggle_workspace_windows os ws).ws = ws := by
      rw [hbranch]
    rw [hws₁]
    by_cases hex : ∃ w ∈ ws.windows, w.valid = true
    · obtain ⟨u, hu, huv⟩ := hex
      have hA₂ : are_all_windows_at_home
          (toggle_workspace_windows os ws).os ws = false := by
        rw [Bool.eq_false_iff]
        intro hA₂
        have h2 := ((all_at_home_iff _ ws).mp hA₂ u hu huv).2
        rw [hpos1 u hu huv] at h2
        exact htarget u hu huv (by simpa using h2)
      intro w hw hv
      have hbranch₂ : toggle_workspace_windows
          (toggle_workspace_windows os ws).os ws =
          ⟨(toggle_home_loop (toggle_workspace_windows os ws).os
              (are_all_windows_at_home (toggle_workspace_windows os ws).os
                ws) ws.windows).1, ws,
            (toggle_home_loop (toggle_workspace_windows os ws).os
              (are_all_windows_at_home (toggle_workspace_windows os ws).os
                ws) ws.windows).2.1,
            (toggle_home_loop (toggle_workspace_windows os ws).os
              (are_all_windows_at_home (toggle_workspace_windows os ws).os
                ws) ws.windows).2.2⟩ := by
        unfold toggle_workspace_windows
        rw [if_neg (by simp [hcond])]
      rw [hbranch₂]
      dsimp only
      rw [hA₂]
      have hm : ∀ id r,
          (toggle_workspace_windows os ws).os.moveOk id r = true :=
        fun id r => by rw [hmoveOk₁]; exact hmove id r
      simpa using toggle_home_loop_pos false ws.windows
        (toggle_workspace_windows os ws).os hm hnodup w hw
        (by rw [hlive₁]; exact hvalid w hw hv)
    · intro w hw hv
      exact absurd ⟨w, hw, hv⟩ hex
  · intro hA w hw hv
    rw [hbranch]
    dsimp only
    rw [hA]
    simpa using toggle_home_loop_pos false ws.windows os hmove hnodup
      w hw (hvalid w hw hv)

/-- Witness for C7: the spec's scenario, workspace `W` with one valid
live window, home `(0,0,400,300)`, target `(500,500,400,300)`, starting
at home: the first toggle puts it at target, the second back at home. -/
theorem toggle_geometry_round_trip_witness :
    (toggle_workspace_windows
      ⟨fun id => decide (id = 1),
        fun id => if id = 1 then some ⟨0, 0, 400, 300⟩ else none,
        fun _ _ => true⟩
      ⟨"W", [⟨1, "w", ⟨0, 0, 400, 300⟩, ⟨500, 500, 400, 300⟩, true⟩],
        false, 0⟩).os.pos 1 = some ⟨500, 500, 400, 300⟩ ∧
    (toggle_workspace_windows
      (toggle_workspace_windows
        ⟨fun id => decide (id = 1),
          fun id => if id = 1 then some ⟨0, 0, 400, 300⟩ else none,
          fun _ _ => true⟩
        ⟨"W", [⟨1, "w", ⟨0, 0, 400, 300⟩, ⟨500, 500, 400, 300⟩, true⟩],
          false, 0⟩).os
      (toggle_workspace_windows
        ⟨fun id => decide (id = 1),
          fun id => if id = 1 then some ⟨0, 0, 400, 300⟩ else none,
          fun _ _ => true⟩
        ⟨"W", [⟨1, "w", ⟨0, 0, 400, 300⟩, ⟨500, 500, 400, 300⟩, true⟩],
          false, 0⟩).ws).os.pos 1 = some ⟨0, 0, 400, 300⟩ := by
  have h := (toggle_geometry_round_trip
    ⟨fun id => decide (id = 1),
      fun id => if id = 1 then some ⟨0, 0, 400, 300⟩ else none,
      fun _ _ => true⟩
    ⟨"W", [⟨1, "w", ⟨0, 0, 400, 300⟩, ⟨500, 500, 400, 300⟩, true⟩],
      false, 0⟩
    (by decide) (by decide) (fun id r => rfl) (by decide)
    (by decide)).1 (by decide)
  exact ⟨h.1 ⟨1, "w", ⟨0, 0, 400, 300⟩, ⟨500, 500, 400, 300⟩, true⟩
      (by simp) rfl,
    h.2 ⟨1, "w", ⟨0, 0, 400, 300⟩, ⟨500, 500, 400, 300⟩, true⟩
      (by simp) rfl⟩

lemma toggle_home_loop_indep (a : Bool) (windows : List Window) :
    ∀ os₁ os₂ : OsState, os₁.live = os₂.live →
      (toggle_home_loop os₁ a windows).2.1.map (fun m => (m.id, m.rect)) =
        (toggle_home_loop os₂ a windows).2.1.map
          (fun m => (m.id, m.rect)) ∧
      (toggle_home_loop os₁ a windows).2.2 =
        (toggle_home_loop os₂ a windows).2.2 := by
  induction windows with
  | nil => intro os₁ os₂ _; exact ⟨rfl, rfl⟩
  | cons v rest ih =>
    intro os₁ os₂ hlive
    unfold toggle_home_loop
    by_cases h : os₁.live v.id = true
    · have h₂ : os₂.live v.id = true := by
        rw [← congrFun hlive v.id]; exact h
      rw [if_pos h, if_pos h₂]
      have htail := ih (move_window os₁ v.id
          (if a then v.target else v.home)).1
        (move_window os₂ v.id (if a then v.target else v.home)).1
        (by rw [move_window_live, move_window_live]; exact hlive)
      refine ⟨?_, ?_⟩
      · dsimp only
        rw [List.map_cons, List.map_cons, htail.1]
      · dsimp only
        rw [htail.2]
    · have h₂ : ¬ os₂.live v.id = true := by
        rw [← congrFun hlive v.id]; exact h
      rw [if_neg h, if_neg h₂]
      exact ih os₁ os₂ hlive

lemma toggle_rotate_loop_indep (tIdx : Nat) (windows : List Window) :
    ∀ (os₁ os₂ : OsState) (i : Nat), os₁.live = os₂.live →
      (toggle_rotate_loop os₁ i tIdx windows).2.1.map
          (fun m => (m.id, m.rect)) =
        (toggle_rotate_loop os₂ i tIdx windows).2.1.map
          (fun m => (m.id, m.rect)) ∧
      (toggle_rotate_loop os₁ i tIdx windows).2.2 =
        (toggle_rotate_loop os₂ i tIdx windows).2.2 := by
  induction windows with
  | nil => intro os₁ os₂ i _; exact ⟨rfl, rfl⟩
  | cons v rest ih =>
    intro os₁ os₂ i hlive
    unfold toggle_rotate_loop
    by_cases h : os₁.live v.id = true
    · have h₂ : os₂.live v.id = true := by
        rw [← congrFun hlive v.id]; exact h
      rw [if_pos h, if_pos h₂]
      have htail := ih (move_window os₁ v.id
          (if i = tIdx then v.target else v.home)).1
        (move_window os₂ v.id (if i = tIdx then v.target else v.home)).1
        (i + 1)
        (by rw [move_window_live, move_window_live]; exact hlive)
      refine ⟨?_, ?_⟩
      · dsimp only
        rw [List.map_cons, List.map_cons, htail.1]
      · dsimp only
        rw [htail.2]
    · have h₂ : ¬ os₂.live v.id = true := by
        rw [← congrFun hlive v.id]; exact h
      rw [if_neg h, if_neg h₂]
      exact ih os₁ os₂ (i + 1) hlive

/-- C9: a failure of the native move on one window never aborts the
iteration of `toggle_workspace_windows`: for any alternative
move-success oracle `f` (in particular one failing on some window), the
attempted moves (window and chosen rectangle, in order), the activation
attempts and the resulting workspace are identical, so every remaining
live window is still attempted with the same position choice. -/
theorem toggle_failure_isolation (os : OsState) (f : Nat → Rect → Bool)
    (ws : Workspace) :
    ((toggle_workspace_windows os ws).moves.map (fun m => (m.id, m.rect)) =
      (toggle_workspace_windows ⟨os.live, os.pos, f⟩ ws).moves.map
        (fun m => (m.id, m.rect)))
    ∧ (toggle_workspace_windows os ws).activated =
        (toggle_workspace_windows ⟨os.live, os.pos, f⟩ ws).activated
    ∧ (toggle_workspace_windows os ws).ws =
        (toggle_workspace_windows ⟨os.live, os.pos, f⟩ ws).ws := by
  unfold toggle_workspace_windows
  by_cases hc : (ws.rotate && decide (ws.windows.length > 1)) = true
  · rw [if_pos hc, if_pos hc]
    dsimp only
    have h := toggle_rotate_loop_indep
      (ws.current_index % ws.windows.length) ws.windows
      os ⟨os.live, os.pos, f⟩ 0 rfl
    exact ⟨h.1, h.2, rfl⟩
  · rw [if_neg hc, if_neg hc]
    dsimp only
    have hsame : are_all_windows_at_home ⟨os.live, os.pos, f⟩ ws =
        are_all_windows_at_home os ws := rfl
    rw [hsame]
    have h := toggle_home_loop_indep (are_all_windows_at_home os ws)
      ws.windows os ⟨os.live, os.pos, f⟩ rfl
    exact ⟨h.1, h.2, rfl⟩

lemma toggle_os_live (os : OsState) (ws : Workspace) :
    (toggle_workspace_windows os ws).os.live = os.live := by
  unfold toggle_workspace_windows
  split <;> dsimp only
  · exact toggle_rotate_loop_live _ _ _ _
  · exact toggle_home_loop_live _ _ _

lemma toggle_os_moveOk (os : OsState) (ws : Workspace) :
    (toggle_workspace_windows os ws).os.moveOk = os.moveOk := by
  unfold toggle_workspace_windows
  split <;> dsimp only
  · exact toggle_rotate_loop_moveOk _ _ _ _
  · exact toggle_home_loop_moveOk _ _ _

lemma toggle_rotate_ws (os : OsState) (ws : Workspace)
    (hrot : ws.rotate = true) (hlen : 1 < ws.windows.length) :
    (toggle_workspace_windows os ws).ws =
      { ws with current_index :=
          (ws.current_index + 1) % ws.windows.length } := by
  unfold toggle_workspace_windows
  rw [if_pos (by simp [hrot, hlen])]

lemma toggle_rotate_call (os : OsState) (ws : Workspace)
    (hrot : ws.rotate = true) (hlen : 1 < ws.windows.length)
    (hlive : ∀ w ∈ ws.windows, os.live w.id = true) :
    (toggle_workspace_windows os ws).moves =
      ws.windows.enum.map (fun p =>
        ⟨p.2.id,
          if p.1 = ws.current_index % ws.windows.length then p.2.target
          else p.2.home,
          os.moveOk p.2.id
            (if p.1 = ws.current_index % ws.windows.length then p.2.target
            else p.2.home)⟩) ∧
    (∃ w, ws.windows.get? (ws.current_index % ws.windows.length) = some w ∧
      (toggle_workspace_windows os ws).activated = [w.id]) := by
  unfold toggle_workspace_windows
  rw [if_pos (by simp [hrot, hlen])]
  dsimp only
  constructor
  · exact toggle_rotate_loop_moves _ ws.windows os 0 hlive
  · have htlt : ws.current_index % ws.windows.length <
        ws.windows.length := Nat.mod_lt _ (by omega)
    refine ⟨ws.windows.get ⟨_, htlt⟩, List.get?_eq_get htlt, ?_⟩
    rw [toggle_rotate_loop_acts _ ws.windows os 0 hlive,
      if_pos (Nat.zero_le _), Nat.sub_zero, List.get?_eq_get htlt]

lemma toggle_iter_rotate (len : Nat) : ∀ (k : Nat) (os : OsState)
    (ws : Workspace), ws.rotate = true → len = ws.windows.length →
    1 < len → ws.current_index < len →
    (toggle_iter k os ws).2.windows = ws.windows ∧
    (toggle_iter k os ws).2.rotate = true ∧
    (toggle_iter k os ws).2.current_index =
      (ws.current_index + k) % len ∧
    (toggle_iter k os ws).1.live = os.live := by
  intro k
  induction k with
  | zero =>
    intro os ws hrot hlen hgt hcur
    exact ⟨rfl, hrot, (Nat.mod_eq_of_lt hcur).symm, rfl⟩
  | succ k ih =>
    intro os ws hrot hlen hgt hcur
    have hws := toggle_rotate_ws os ws hrot (hlen ▸ hgt)
    have hstep : toggle_iter (k + 1) os ws =
        toggle_iter k (toggle_workspace_windows os ws).os
          (toggle_workspace_windows os ws).ws := rfl
    have hcur' : (toggle_workspace_windows os ws).ws.current_index < len := by
      rw [hws]
      exact hlen ▸ Nat.mod_lt _ (by omega)
    have ihh := ih (toggle_workspace_windows os ws).os
      (toggle_workspace_windows os ws).ws
      (by rw [hws]; exact hrot) (by rw [hws]; exact hlen) hgt hcur'
    rw [hstep]
    refine ⟨by rw [ihh.1, hws], ihh.2.1, ?_, by rw [ihh.2.2.2, toggle_os_live]⟩
    rw [ihh.2.2.1, hws]
    show ((ws.current_index + 1) % ws.windows.length + k) % len =
      (ws.current_index + (k + 1)) % len
    rw [← hlen, Nat.mod_add_mod]
    congr 1
    omega

lemma mem_enum_of_get? {α : Type} {l : List α} {j : Nat} {v : α}
    (h : l.get? j = some v) : (j, v) ∈ l.enum := by
  rw [List.get?_eq_getElem?] at h
  exact List.mk_mem_enum_iff_getElem?.mpr h

/-- C2: for a rotate workspace with at least two live windows, one call
to `toggle_workspace_windows` moves exactly the window at index
`current_index % window_count` to its target rectangle (all others to
home, positionally), activates only that window, advances the cursor to
`(current_index + 1) % window_count`, and leaves the window list
unchanged; starting from cursor 0, the k-th consecutive call targets
window `k % N`, so N calls place each window at target exactly once
while the others are placed at home, and the (N+1)-th call repeats
window 0's target placement. -/
theorem toggle_rotate_spec (os : OsState) (ws : Workspace)
    (hrot : ws.rotate = true) (hlen : 1 < ws.windows.length)
    (hlive : ∀ w ∈ ws.windows, os.live w.id = true) :
    ((toggle_workspace_windows os ws).moves =
      ws.windows.enum.map (fun p =>
        ⟨p.2.id,
          if p.1 = ws.current_index % ws.windows.length then p.2.target
          else p.2.home,
          os.moveOk p.2.id
            (if p.1 = ws.current_index % ws.windows.length then p.2.target
            else p.2.home)⟩))
    ∧ (∃ w, ws.windows.get? (ws.current_index % ws.windows.length) =
        some w ∧ (toggle_workspace_windows os ws).activated = [w.id])
    ∧ (toggle_workspace_windows os ws).ws.current_index =
        (ws.current_index + 1) % ws.windows.length
    ∧ (toggle_workspace_windows os ws).ws.windows = ws.windows
    ∧ (ws.current_index = 0 → ∀ k : Nat,
        ∃ w, ws.windows.get? (k % ws.windows.length) = some w ∧
          (∃ ok, MoveAttempt.mk w.id w.target ok ∈
            (toggle_workspace_windows (toggle_iter k os ws).1
              (toggle_iter k os ws).2).moves) ∧
          (toggle_workspace_windows (toggle_iter k os ws).1
            (toggle_iter k os ws).2).activated = [w.id] ∧
          (∀ j v, ws.windows.get? j = some v →
            j ≠ k % ws.windows.length →
            ∃ ok, MoveAttempt.mk v.id v.home ok ∈
              (toggle_workspace_windows (toggle_iter k os ws).1
                (toggle_iter k os ws).2).moves)) := by
  have hcall := toggle_rotate_call os ws hrot hlen hlive
  refine ⟨hcall.1, hcall.2,
    by rw [toggle_rotate_ws os ws hrot hlen],
    by rw [toggle_rotate_ws os ws hrot hlen], ?_⟩
  intro h0 k
  obtain ⟨hwin, hr, hcur, hlv⟩ :=
    toggle_iter_rotate ws.windows.length k os ws hrot rfl hlen
      (by omega)
  have hlive' : ∀ w ∈ (toggle_iter k os ws).2.windows,
      (toggle_iter k os ws).1.live w.id = true := by
    intro w hw
    rw [hlv]
    exact hlive w (hwin ▸ hw)
  have hcall' := toggle_rotate_call (toggle_iter k os ws).1
    (toggle_iter k os ws).2 hr (by rw [hwin]; exact hlen) hlive'
  have hidx : (toggle_iter k os ws).2.current_index %
      (toggle_iter k os ws).2.windows.length =
      k % ws.windows.length := by
    rw [hcur, hwin, h0]
    simp
  have hmoves := hcall'.1
  rw [hidx] at hmoves
  rw [hwin] at hmoves
  obtain ⟨w, hwget, hact⟩ := hcall'.2
  rw [hidx] at hwget
  rw [hwin] at hwget
  refine ⟨w, hwget, ?_, hact, ?_⟩
  · refine ⟨(toggle_iter k os ws).1.moveOk w.id w.target, ?_⟩
    rw [hmoves]
    have hmem := List.mem_map_of_mem (fun p : Nat × Window =>
      MoveAttempt.mk p.2.id
        (if p.1 = k % ws.windows.length then p.2.target else p.2.home)
        ((toggle_iter k os ws).1.moveOk p.2.id
          (if p.1 = k % ws.windows.length then p.2.target else p.2.home)))
      (mem_enum_of_get? hwget)
    simpa using hmem
  · intro j v hjget hjne
    refine ⟨(toggle_iter k os ws).1.moveOk v.id v.home, ?_⟩
    rw [hmoves]
    have hmem := List.mem_map_of_mem (fun p : Nat × Window =>
      MoveAttempt.mk p.2.id
        (if p.1 = k % ws.windows.length then p.2.target else p.2.home)
        ((toggle_iter k os ws).1.moveOk p.2.id
          (if p.1 = k % ws.windows.length then p.2.target else p.2.home)))
      (mem_enum_of_get? hjget)
    simpa [hjne] using hmem

/-- Witness for C2: a rotate workspace with two live windows and cursor
0: the toggle activates exactly window 1 (the entry at index 0) and
advances the cursor to 1. -/
theorem toggle_rotate_spec_witness :
    (toggle_workspace_windows
      ⟨fun _ => true, fun _ => none, fun _ _ => true⟩
      ⟨"R", [⟨1, "a", ⟨0, 0, 10, 10⟩, ⟨5, 5, 10, 10⟩, true⟩,
        ⟨2, "b", ⟨0, 20, 10, 10⟩, ⟨5, 25, 10, 10⟩, true⟩],
        true, 0⟩).ws.current_index = 1 ∧
    (toggle_workspace_windows
      ⟨fun _ => true, fun _ => none, fun _ _ => true⟩
      ⟨"R", [⟨1, "a", ⟨0, 0, 10, 10⟩, ⟨5, 5, 10, 10⟩, true⟩,
        ⟨2, "b", ⟨0, 20, 10, 10⟩, ⟨5, 25, 10, 10⟩, true⟩],
        true, 0⟩).activated = [1] := by
  have h := toggle_rotate_spec
    ⟨fun _ => true, fun _ => none, fun _ _ => true⟩
    ⟨"R", [⟨1, "a", ⟨0, 0, 10, 10⟩, ⟨5, 5, 10, 10⟩, true⟩,
      ⟨2, "b", ⟨0, 20, 10, 10⟩, ⟨5, 25, 10, 10⟩, true⟩],
      true, 0⟩
    rfl (by decide) (fun w _ => rfl)
  refine ⟨by simpa using h.2.2.1, ?_⟩
  obtain ⟨w, hwget, hact⟩ := h.2.1
  have hw : w = ⟨1, "a", ⟨0, 0, 10, 10⟩, ⟨5, 5, 10, 10⟩, true⟩ := by
    simpa using hwget.symm
  rw [hw] at hact
  exact hact

lemma apply_one_total (live : Nat → Bool) (windows : List Window)
    (stats : BindingApplicationStats) (b : WindowBindingSnapshot) :
    (apply_one live windows stats b).2.restored +
      (apply_one live windows stats b).2.invalidated +
      (apply_one live windows stats b).2.unmatched =
      stats.restored + stats.invalidated + stats.unmatched + 1 := by
  unfold apply_one
  cases hf : find_window_idx windows b with
  | none => dsimp only; omega
  | some idx =>
    dsimp only
    cases hg : windows.get? idx with
    | none =>
      dsimp only
      omega
    | some w =>
      dsimp only
      by_cases hl : live b.hwnd = true
      · rw [if_pos hl]; dsimp only; omega
      · rw [if_neg hl]; dsimp only; omega

lemma apply_windows_total (live : Nat → Bool) :
    ∀ (bs : List WindowBindingSnapshot) (windows : List Window)
      (stats : BindingApplicationStats),
    (apply_windows live windows stats bs).2.restored +
      (apply_windows live windows stats bs).2.invalidated +
      (apply_windows live windows stats bs).2.unmatched =
      stats.restored + stats.invalidated + stats.unmatched + bs.length := by
  intro bs
  induction bs with
  | nil => intro windows stats; simp [apply_windows]
  | cons b rest ih =>
    intro windows stats
    unfold apply_windows
    dsimp only
    rw [ih]
    have h := apply_one_total live windows stats b
    simp only [List.length_cons]
    omega

lemma find_workspace_idx_lt (wss : List Workspace)
    (b : WorkspaceBindingSnapshot) (wi : Nat)
    (h : find_workspace_idx wss b = some wi) : wi < wss.length := by
  unfold find_workspace_idx at h
  cases hg : wss.get? b.workspace_index with
  | some ws =>
    rw [hg] at h
    dsimp only at h
    by_cases hn : ws.name = b.workspace_name
    · rw [if_pos hn] at h
      simp only [Option.orElse, Option.some.injEq] at h
      obtain ⟨hlt, -⟩ := List.get?_eq_some.mp hg
      omega
    · rw [if_neg hn] at h
      simp only [Option.orElse] at h
      obtain ⟨hlt, -, -⟩ := List.findIdx?_eq_some_iff_getElem.mp h
      exact hlt
  | none =>
    rw [hg] at h
    dsimp only at h
    simp only [Option.orElse] at h
    obtain ⟨hlt, -, -⟩ := List.findIdx?_eq_some_iff_getElem.mp h
    exact hlt

lemma apply_snapshot_total (live : Nat → Bool) (wss : List Workspace)
    (stats : BindingApplicationStats) (b : WorkspaceBindingSnapshot) :
    (apply_snapshot live wss stats b).2.restored +
      (apply_snapshot live wss stats b).2.invalidated +
      (apply_snapshot live wss stats b).2.unmatched =
      stats.restored + stats.invalidated + stats.unmatched +
        b.windows.length := by
  unfold apply_snapshot
  cases hf : find_workspace_idx wss b with
  | none => dsimp only; omega
  | some wi =>
    dsimp only
    have hlt := find_workspace_idx_lt wss b wi hf
    rw [List.get?_eq_get hlt]
    dsimp only
    exact apply_windows_total live b.windows _ stats

lemma apply_snapshots_total (live : Nat → Bool) :
    ∀ (bs : List WorkspaceBindingSnapshot) (wss : List Workspace)
      (stats : BindingApplicationStats),
    (apply_snapshots live wss stats bs).2.restored +
      (apply_snapshots live wss stats bs).2.invalidated +
      (apply_snapshots live wss stats bs).2.unmatched =
      stats.restored + stats.invalidated + stats.unmatched +
        (bs.map (fun b => b.windows.length)).sum := by
  intro bs
  induction bs with
  | nil => intro wss stats; simp [apply_snapshots]
  | cons b rest ih =>
    intro wss stats
    unfold apply_snapshots
    dsimp only
    rw [ih]
    have h := apply_snapshot_total live wss stats b
    simp only [List.map_cons, List.sum_cons]
    omega

/-- C10: the statistics of `apply_window_bindings` partition the window
records: `restored + invalidated + unmatched` equals the total number of
window records summed over all snapshots, so every record is counted in
exactly one category. -/
theorem apply_bindings_stats_partition (live : Nat → Bool)
    (workspaces : List Workspace)
    (bindings : List WorkspaceBindingSnapshot) :
    (apply_window_bindings live workspaces bindings).2.restored +
      (apply_window_bindings live workspaces bindings).2.invalidated +
      (apply_window_bindings live workspaces bindings).2.unmatched =
      (bindings.map (fun b => b.windows.length)).sum := by
  have h := apply_snapshots_total live bindings workspaces ⟨0, 0, 0⟩
  simpa using h

lemma map_set_same {α β : Type} (f : α → β) : ∀ (l : List α) (i : Nat)
    (a a' : α), l.get? i = some a' → f a = f a' →
    (l.set i a).map f = l.map f := by
  intro l
  induction l with
  | nil => intro i a a' h _; simp at h
  | cons x xs ih =>
    intro i a a' h hf
    cases i with
    | zero =>
      simp only [List.get?_cons_zero, Option.some.injEq] at h
      subst h
      simp [hf]
    | succ n =>
      simp only [List.get?_cons_succ] at h
      simp [ih n a a' h hf]

lemma apply_one_skel (live : Nat → Bool) (windows : List Window)
    (stats : BindingApplicationStats) (b : WindowBindingSnapshot) :
    (apply_one live windows stats b).1.map windowSkeleton =
      windows.map windowSkeleton := by
  unfold apply_one
  cases hf : find_window_idx windows b with
  | none => rfl
  | some idx =>
    dsimp only
    cases hg : windows.get? idx with
    | none => rfl
    | some w =>
      dsimp only
      by_cases hl : live b.hwnd = true
      · rw [if_pos hl]
        exact map_set_same windowSkeleton windows idx _ w hg rfl
      · rw [if_neg hl]
        exact map_set_same windowSkeleton windows idx _ w hg rfl

lemma apply_windows_skel (live : Nat → Bool) :
    ∀ (bs : List WindowBindingSnapshot) (windows : List Window)
      (stats : BindingApplicationStats),
    (apply_windows live windows stats bs).1.map windowSkeleton =
      windows.map windowSkeleton := by
  intro bs
  induction bs with
  | nil => intro windows stats; rfl
  | cons b rest ih =>
    intro windows stats
    unfold apply_windows
    dsimp only
    rw [ih]
    exact apply_one_skel live windows stats b

lemma apply_snapshot_skel (live : Nat → Bool) (wss : List Workspace)
    (stats : BindingApplicationStats) (b : WorkspaceBindingSnapshot) :
    (apply_snapshot live wss stats b).1.map workspaceSkeleton =
      wss.map workspaceSkeleton := by
  unfold apply_snapshot
  cases hf : find_workspace_idx wss b with
  | none => rfl
  | some wi =>
    dsimp only
    cases hg : wss.get? wi with
    | none => rfl
    | some ws =>
      dsimp only
      apply map_set_same workspaceSkeleton wss wi _ ws hg
      unfold workspaceSkeleton
      dsimp only
      rw [apply_windows_skel]

lemma apply_snapshots_skel (live : Nat → Bool) :
    ∀ (bs : List WorkspaceBindingSnapshot) (wss : List Workspace)
      (stats : BindingApplicationStats),
    (apply_snapshots live wss stats bs).1.map workspaceSkeleton =
      wss.map workspaceSkeleton := by
  intro bs
  induction bs with
  | nil => intro wss stats; rfl
  | cons b rest ih =>
    intro wss stats
    unfold apply_snapshots
    dsimp only
    rw [ih]
    exact apply_snapshot_skel live wss stats b

lemma findIdx?_congr_map {α β : Type} (f : α → β) (p : β → Bool) :
    ∀ (l₁ l₂ : List α) (i : Nat), l₁.map f = l₂.map f →
    List.findIdx? (fun a => p (f a)) l₁ i =
      List.findIdx? (fun a => p (f a)) l₂ i := by
  intro l₁
  induction l₁ with
  | nil =>
    intro l₂ i h
    have h2 : l₂ = [] := by simpa using h.symm
    subst h2
    rfl
  | cons x xs ih =>
    intro l₂ i h
    cases l₂ with
    | nil => simp at h
    | cons y ys =>
      simp only [List.map_cons, List.cons.injEq] at h
      obtain ⟨hxy, htail⟩ := h
      rw [List.findIdx?_cons, List.findIdx?_cons, hxy]
      by_cases hp : p (f y) = true
      · rw [if_pos hp, if_pos hp]
      · rw [if_neg hp, if_neg hp]
        exact ih ys (i + 1) htail

lemma titles_of_skeleton (l₁ l₂ : List Window)
    (h : l₁.map windowSkeleton = l₂.map windowSkeleton) :
    l₁.map Window.title = l₂.map Window.title := by
  have h2 := congrArg (List.map Prod.fst) h
  simpa [List.map_map, Function.comp, windowSkeleton] using h2

lemma names_of_skeleton (l₁ l₂ : List Workspace)
    (h : l₁.map workspaceSkeleton = l₂.map workspaceSkeleton) :
    l₁.map Workspace.name = l₂.map Workspace.name := by
  have h2 := congrArg (List.map Prod.fst) h
  simpa [List.map_map, Function.comp, workspaceSkeleton] using h2

lemma find_window_idx_titles (l₁ l₂ : List Window)
    (b : WindowBindingSnapshot)
    (h : l₁.map Window.title = l₂.map Window.title) :
    find_window_idx l₁ b = find_window_idx l₂ b := by
  have hlen : l₁.length = l₂.length := by
    have h2 := congrArg List.length h
    simpa using h2
  have hfind : l₁.findIdx? (fun v => v.title == b.window_title) =
      l₂.findIdx? (fun v => v.title == b.window_title) :=
    findIdx?_congr_map Window.title (fun s => s == b.window_title)
      l₁ l₂ 0 h
  unfold find_window_idx
  cases hg₁ : l₁.get? b.window_index with
  | none =>
    cases hg₂ : l₂.get? b.window_index with
    | none => exact hfind
    | some w₂ =>
      exfalso
      have h₁ := List.get?_eq_none.mp hg₁
      obtain ⟨hlt, -⟩ := List.get?_eq_some.mp hg₂
      omega
  | some w₁ =>
    cases hg₂ : l₂.get? b.window_index with
    | none =>
      exfalso
      have h₂ := List.get?_eq_none.mp hg₂
      obtain ⟨hlt, -⟩ := List.get?_eq_some.mp hg₁
      omega
    | some w₂ =>
      have htitle : w₁.title = w₂.title := by
        have e₁ : (l₁.map Window.title).get? b.window_index =
            some w₁.title := by rw [List.get?_map, hg₁]; rfl
        have e₂ : (l₂.map Window.title).get? b.window_index =
            some w₂.title := by rw [List.get?_map, hg₂]; rfl
        rw [h, e₂] at e₁
        injection e₁ with e
        exact e.symm
      dsimp only
      rw [htitle]
      by_cases ht : w₂.title = b.window_title
      · rw [if_pos ht, if_pos ht]
      · rw [if_neg ht, if_neg ht]
        exact hfind

lemma find_workspace_idx_names (wss₁ wss₂ : List Workspace)
    (b : WorkspaceBindingSnapshot)
    (h : wss₁.map Workspace.name = wss₂.map Workspace.name) :
    find_workspace_idx wss₁ b = find_workspace_idx wss₂ b := by
  have hlen : wss₁.length = wss₂.length := by
    have h2 := congrArg List.length h
    simpa using h2
  have hfind : wss₁.findIdx? (fun ws => ws.name == b.workspace_name) =
      wss₂.findIdx? (fun ws => ws.name == b.workspace_name) :=
    findIdx?_congr_map Workspace.name (fun s => s == b.workspace_name)
      wss₁ wss₂ 0 h
  unfold find_workspace_idx
  cases hg₁ : wss₁.get? b.workspace_index with
  | none =>
    cases hg₂ : wss₂.get? b.workspace_index with
    | none => simpa [Option.orElse] using hfind
    | some ws₂ =>
      exfalso
      have h₁ := List.get?_eq_none.mp hg₁
      obtain ⟨hlt, -⟩ := List.get?_eq_some.mp hg₂
      omega
  | some ws₁ =>
    cases hg₂ : wss₂.get? b.workspace_index with
    | none =>
      exfalso
      have h₂ := List.get?_eq_none.mp hg₂
      obtain ⟨hlt, -⟩ := List.get?_eq_some.mp hg₁
      omega
    | some ws₂ =>
      have hname : ws₁.name = ws₂.name := by
        have e₁ : (wss₁.map Workspace.name).get? b.workspace_index =
            some ws₁.name := by rw [List.get?_map, hg₁]; rfl
        have e₂ : (wss₂.map Workspace.name).get? b.workspace_index =
            some ws₂.name := by rw [List.get?_map, hg₂]; rfl
        rw [h, e₂] at e₁
        injection e₁ with e
        exact e.symm
      dsimp only
      rw [hname]
      by_cases hn : ws₂.name = b.workspace_name
      · rw [if_pos hn]
        simp [Option.orElse]
      · rw [if_neg hn]
        simpa [Option.orElse] using hfind

lemma apply_snapshots_untouched_ws (live : Nat → Bool) :
    ∀ (bs : List WorkspaceBindingSnapshot) (cur : List Workspace)
      (stats : BindingApplicationStats) (k : Nat) (ws : Workspace),
    cur.get? k = some ws →
    (∀ b ∈ bs, find_workspace_idx cur b ≠ some k) →
    (apply_snapshots live cur stats bs).1.get? k = some ws := by
  intro bs
  induction bs with
  | nil => intro cur stats k ws hget _; exact hget
  | cons b rest ih =>
    intro cur stats k ws hget hnb
    unfold apply_snapshots
    dsimp only
    have hname := names_of_skeleton _ _ (apply_snapshot_skel live cur stats b)
    have hgetk : (apply_snapshot live cur stats b).1.get? k = some ws := by
      cases hf : find_workspace_idx cur b with
      | none =>
        unfold apply_snapshot
        rw [hf]
        exact hget
      | some wi =>
        have hki : wi ≠ k := fun he => hnb b (by simp) (he ▸ hf)
        unfold apply_snapshot
        rw [hf]
        dsimp only
        cases hg : cur.get? wi with
        | none => exact hget
        | some wsi =>
          dsimp only
          rw [List.get?_set_ne _ _ hki]
          exact hget
    exact ih _ _ k ws hgetk (fun b' hb' => by
      rw [find_workspace_idx_names _ cur b' hname]
      exact hnb b' (List.mem_cons_of_mem b hb'))

lemma apply_windows_untouched (live : Nat → Bool) :
    ∀ (wbs : List WindowBindingSnapshot) (curW : List Window)
      (stats : BindingApplicationStats) (j : Nat) (w : Window),
    curW.get? j = some w →
    (∀ wb ∈ wbs, find_window_idx curW wb ≠ some j) →
    (apply_windows live curW stats wbs).1.get? j = some w := by
  intro wbs
  induction wbs with
  | nil => intro curW stats j w hget _; exact hget
  | cons wb rest ih =>
    intro curW stats j w hget hwb
    unfold apply_windows
    dsimp only
    have htit := titles_of_skeleton _ _ (apply_one_skel live curW stats wb)
    have hgetj : (apply_one live curW stats wb).1.get? j = some w := by
      cases hf : find_window_idx curW wb with
      | none =>
        unfold apply_one
        rw [hf]
        exact hget
      | some idx =>
        have hij : idx ≠ j := fun he => hwb wb (by simp) (he ▸ hf)
        unfold apply_one
        rw [hf]
        dsimp only
        cases hg : curW.get? idx with
        | none => exact hget
        | some wi =>
          dsimp only
          by_cases hl : live wb.hwnd = true
          · rw [if_pos hl, List.get?_set_ne _ _ hij]
            exact hget
          · rw [if_neg hl, List.get?_set_ne _ _ hij]
            exact hget
    exact ih _ _ j w hgetj (fun wb' hb' => by
      rw [find_window_idx_titles _ curW wb' htit]
      exact hwb wb' (List.mem_cons_of_mem wb hb'))

lemma apply_snapshots_untouched_entry (live : Nat → Bool) :
    ∀ (bs : List WorkspaceBindingSnapshot) (cur : List Workspace)
      (stats : BindingApplicationStats) (k j : Nat) (ws : Workspace)
      (w : Window),
    cur.get? k = some ws →
    ws.windows.get? j = some w →
    (∀ b ∈ bs, find_workspace_idx cur b = some k →
      ∀ wb ∈ b.windows, find_window_idx ws.windows wb ≠ some j) →
    ∃ ws₂, (apply_snapshots live cur stats bs).1.get? k = some ws₂ ∧
      ws₂.windows.get? j = some w ∧
      ws₂.windows.map Window.title = ws.windows.map Window.title := by
  intro bs
  induction bs with
  | nil =>
    intro cur stats k j ws w hget hgetj _
    exact ⟨ws, hget, hgetj, rfl⟩
  | cons b rest ih =>
    intro cur stats k j ws w hget hgetj hnb
    unfold apply_snapshots
    dsimp only
    have hname := names_of_skeleton _ _ (apply_snapshot_skel live cur stats b)
    have hstep : ∃ ws₁, (apply_snapshot live cur stats b).1.get? k =
        some ws₁ ∧ ws₁.windows.get? j = some w ∧
        ws₁.windows.map Window.title = ws.windows.map Window.title := by
      cases hf : find_workspace_idx cur b with
      | none =>
        refine ⟨ws, ?_, hgetj, rfl⟩
        unfold apply_snapshot
        rw [hf]
        exact hget
      | some wi =>
        by_cases hki : wi = k
        · subst hki
          refine ⟨{ ws with windows :=
              (apply_windows live ws.windows stats b.windows).1 }, ?_, ?_, ?_⟩
          · unfold apply_snapshot
            rw [hf]
            dsimp only
            rw [hget]
            dsimp only
            obtain ⟨hlt, -⟩ := List.get?_eq_some.mp hget
            exact List.get?_set_eq_of_lt _ hlt
          · exact apply_windows_untouched live b.windows ws.windows stats
              j w hgetj (hnb b (by simp) hf)
          · exact titles_of_skeleton _ _
              (apply_windows_skel live b.windows ws.windows stats)
        · refine ⟨ws, ?_, hgetj, rfl⟩
          unfold apply_snapshot
          rw [hf]
          dsimp only
          cases hg : cur.get? wi with
          | none => exact hget
          | some wsi =>
            dsimp only
            rw [List.get?_set_ne _ _ hki]
            exact hget
    obtain ⟨ws₁, h1, h2, h3⟩ := hstep
    obtain ⟨ws₂, g1, g2, g3⟩ := ih _ _ k j ws₁ w h1 h2 (fun b' hb' hf' wb hwb => by
      rw [find_window_idx_titles _ ws.windows wb h3]
      refine hnb b' (List.mem_cons_of_mem b hb') ?_ wb hwb
      rw [← find_workspace_idx_names _ cur b' hname]
      exact hf')
    exact ⟨ws₂, g1, g2, g3.trans h3⟩

/-- C6: `apply_window_bindings` never adds, removes or reorders window
entries: the skeleton of the workspace list — every workspace's name,
rotate flag, cursor, and its windows' titles and home/target rectangles
in order — is unchanged; a workspace no snapshot's lookup resolves to is
returned entirely unchanged, and within a matched workspace every entry
no window binding's lookup resolves to keeps its identifier and `valid`
flag too — so only the identifier and `valid` fields of matched entries
may change. -/
theorem apply_bindings_frame (live : Nat → Bool)
    (workspaces : List Workspace)
    (bindings : List WorkspaceBindingSnapshot) :
    ((apply_window_bindings live workspaces bindings).1.map
      workspaceSkeleton = workspaces.map workspaceSkeleton)
    ∧ (∀ k ws, workspaces.get? k = some ws →
        (∀ b ∈ bindings, find_workspace_idx workspaces b ≠ some k) →
        (apply_window_bindings live workspaces bindings).1.get? k =
          some ws)
    ∧ (∀ k j ws w, workspaces.get? k = some ws →
        ws.windows.get? j = some w →
        (∀ b ∈ bindings, find_workspace_idx workspaces b = some k →
          ∀ wb ∈ b.windows, find_window_idx ws.windows wb ≠ some j) →
        ∃ ws₂, (apply_window_bindings live workspaces bindings).1.get? k =
          some ws₂ ∧ ws₂.windows.get? j = some w) := by
  refine ⟨apply_snapshots_skel live bindings workspaces ⟨0, 0, 0⟩, ?_, ?_⟩
  · intro k ws hget hnb
    exact apply_snapshots_untouched_ws live bindings workspaces ⟨0, 0, 0⟩
      k ws hget hnb
  · intro k j ws w hget hgetj hnb
    obtain ⟨ws₂, h1, h2, -⟩ := apply_snapshots_untouched_entry live
      bindings workspaces ⟨0, 0, 0⟩ k j ws w hget hgetj hnb
    exact ⟨ws₂, h1, h2⟩

/-- Witness for C6: two workspaces; the single snapshot resolves to
workspace 0 but its window record's title matches no entry there, so the
entry of workspace 0 keeps its identifier and `valid` flag and workspace
1 is returned entirely unchanged. -/
theorem apply_bindings_frame_witness :
    ((apply_window_bindings (fun _ => true)
      [⟨"A", [⟨5, "t", ⟨0, 0, 1, 1⟩, ⟨2, 2, 1, 1⟩, true⟩], false, 0⟩,
        ⟨"B", [⟨6, "s", ⟨0, 0, 1, 1⟩, ⟨2, 2, 1, 1⟩, true⟩], false, 0⟩]
      [⟨0, "A", [⟨0, "u", 9⟩]⟩]).1.get? 1 =
      some ⟨"B", [⟨6, "s", ⟨0, 0, 1, 1⟩, ⟨2, 2, 1, 1⟩, true⟩], false, 0⟩)
    ∧ (∃ ws₂, (apply_window_bindings (fun _ => true)
        [⟨"A", [⟨5, "t", ⟨0, 0, 1, 1⟩, ⟨2, 2, 1, 1⟩, true⟩], false, 0⟩,
          ⟨"B", [⟨6, "s", ⟨0, 0, 1, 1⟩, ⟨2, 2, 1, 1⟩, true⟩], false, 0⟩]
        [⟨0, "A", [⟨0, "u", 9⟩]⟩]).1.get? 0 = some ws₂ ∧
        ws₂.windows.get? 0 =
          some ⟨5, "t", ⟨0, 0, 1, 1⟩, ⟨2, 2, 1, 1⟩, true⟩) := by
  have h := apply_bindings_frame (fun _ => true)
    [⟨"A", [⟨5, "t", ⟨0, 0, 1, 1⟩, ⟨2, 2, 1, 1⟩, true⟩], false, 0⟩,
      ⟨"B", [⟨6, "s", ⟨0, 0, 1, 1⟩, ⟨2, 2, 1, 1⟩, true⟩], false, 0⟩]
    [⟨0, "A", [⟨0, "u", 9⟩]⟩]
  refine ⟨h.2.1 1 _ (by decide) (by decide), ?_⟩
  exact h.2.2 0 0 ⟨"A", [⟨5, "t", ⟨0, 0, 1, 1⟩, ⟨2, 2, 1, 1⟩, true⟩],
    false, 0⟩ ⟨5, "t", ⟨0, 0, 1, 1⟩, ⟨2, 2, 1, 1⟩, true⟩
    (by decide) (by decide) (by decide)

/-- C5: for a window binding matched to entry `w` at index `idx`: if the
persisted identifier is still live, the entry's identifier is overwritten
with it and `valid` set to `true`, counting `restored`; if it is dead,
only `valid` is cleared (the old identifier `w.id` is kept), counting
`invalidated`; in both cases the window count is unchanged. -/
theorem apply_binding_outcome (live : Nat → Bool) (windows : List Window)
    (stats : BindingApplicationStats) (b : WindowBindingSnapshot)
    (idx : Nat) (w : Window)
    (hfind : find_window_idx windows b = some idx)
    (hget : windows.get? idx = some w) :
    (live b.hwnd = true →
      apply_one live windows stats b =
        (windows.set idx { w with id := b.hwnd, valid := true },
          { stats with restored := stats.restored + 1 })) ∧
    (live b.hwnd = false →
      apply_one live windows stats b =
        (windows.set idx { w with valid := false },
          { stats with invalidated := stats.invalidated + 1 })) ∧
    (apply_one live windows stats b).1.length = windows.length := by
  unfold apply_one
  rw [hfind]
  dsimp only
  rw [hget]
  dsimp only
  refine ⟨?_, ?_, ?_⟩
  · intro hl
    rw [if_pos hl]
  · intro hl
    rw [if_neg (by simp [hl])]
  · by_cases hl : live b.hwnd = true
    · rw [if_pos hl]
      exact List.length_set windows idx _
    · rw [if_neg hl]
      exact List.length_set windows idx _

/-- Witness for C5 at a concrete invalidated binding: one entry with
identifier 5 and a persisted identifier 9 that is no longer live — the
entry keeps its old identifier, `valid` becomes `false`, and the stats
count one `invalidated`. -/
theorem apply_binding_outcome_witness :
    apply_one (fun n => decide (n = 5))
      [⟨5, "t", ⟨0, 0, 1, 1⟩, ⟨2, 2, 1, 1⟩, true⟩] ⟨0, 0, 0⟩
      ⟨0, "t", 9⟩ =
      ([⟨5, "t", ⟨0, 0, 1, 1⟩, ⟨2, 2, 1, 1⟩, false⟩], ⟨0, 1, 0⟩) := by
  have h := (apply_binding_outcome (fun n => decide (n = 5))
    [⟨5, "t", ⟨0, 0, 1, 1⟩, ⟨2, 2, 1, 1⟩, true⟩] ⟨0, 0, 0⟩
    ⟨0, "t", 9⟩ 0 ⟨5, "t", ⟨0, 0, 1, 1⟩, ⟨2, 2, 1, 1⟩, true⟩
    (by decide) (by decide)).2.1 (by decide)
  exact h

/-- C4: a snapshot's workspace is located by first accepting the stored
index when in range with the stored name at that index, else by a linear
name scan; a snapshot whose stored name matches no workspace (e.g. after
a rename with no other workspace sharing the old name) counts all its
window records as `unmatched` and mutates nothing. -/
theorem snapshot_workspace_lookup (live : Nat → Bool)
    (wss : List Workspace) (b : WorkspaceBindingSnapshot)
    (stats : BindingApplicationStats) :
    (∀ ws, wss.get? b.workspace_index = some ws →
      ws.name = b.workspace_name →
      find_workspace_idx wss b = some b.workspace_index)
    ∧ ((∀ ws, wss.get? b.workspace_index = some ws →
        ws.name ≠ b.workspace_name) →
      find_workspace_idx wss b =
        wss.findIdx? (fun ws => ws.name == b.workspace_name))
    ∧ ((∀ ws ∈ wss, ws.name ≠ b.workspace_name) →
      apply_snapshot live wss stats b =
        (wss, { stats with unmatched :=
          stats.unmatched + b.windows.length })) := by
  refine ⟨?_, ?_, ?_⟩
  · intro ws hget hname
    unfold find_workspace_idx
    rw [hget]
    dsimp only
    rw [if_pos hname]
    rfl
  · intro hmiss
    unfold find_workspace_idx
    cases hget : wss.get? b.workspace_index with
    | none => rfl
    | some ws =>
      dsimp only
      rw [if_neg (hmiss ws hget)]
      rfl
  · intro hnone
    have hidx : wss.findIdx? (fun ws => ws.name == b.workspace_name) =
        none := by
      refine List.findIdx?_eq_none_iff.mpr (fun ws hws => ?_)
      simp [hnone ws hws]
    have hfind : find_workspace_idx wss b = none := by
      unfold find_workspace_idx
      cases hget : wss.get? b.workspace_index with
      | none => simpa [Option.orElse] using hidx
      | some ws =>
        dsimp only
        rw [if_neg (hnone ws (List.get?_mem hget))]
        simpa [Option.orElse] using hidx
    unfold apply_snapshot
    rw [hfind]

/-- Witness for C4: a single workspace named `A`; a snapshot with the
matching name resolves to index 0, a snapshot with the stale name `B`
falls back to the (empty) name scan, and applying the stale snapshot
leaves the workspace untouched while counting its one window record
`unmatched`. -/
theorem snapshot_workspace_lookup_witness :
    find_workspace_idx [⟨"A", [], false, 0⟩] ⟨0, "A", []⟩ = some 0 ∧
    find_workspace_idx [⟨"A", [], false, 0⟩] ⟨0, "B", []⟩ =
      [(⟨"A", [], false, 0⟩ : Workspace)].findIdx?
        (fun ws => ws.name == "B") ∧
    apply_snapshot (fun _ => true) [⟨"A", [], false, 0⟩] ⟨0, 0, 0⟩
      ⟨0, "B", [⟨0, "t", 7⟩]⟩ =
      ([⟨"A", [], false, 0⟩], ⟨0, 0, 1⟩) := by
  refine ⟨?_, ?_, ?_⟩
  · exact (snapshot_workspace_lookup (fun _ => true)
      [⟨"A", [], false, 0⟩] ⟨0, "A", []⟩ ⟨0, 0, 0⟩).1
      ⟨"A", [], false, 0⟩ rfl rfl
  · refine (snapshot_workspace_lookup (fun _ => true)
      [⟨"A", [], false, 0⟩] ⟨0, "B", []⟩ ⟨0, 0, 0⟩).2.1 ?_
    intro ws hget
    injection hget with h
    rw [← h]
    decide
  · refine (snapshot_workspace_lookup (fun _ => true)
      [⟨"A", [], false, 0⟩] ⟨0, "B", [⟨0, "t", 7⟩]⟩ ⟨0, 0, 0⟩).2.2 ?_
    intro ws hws
    rw [List.mem_singleton] at hws
    subst hws
    decide

lemma get?_append_length {α : Type} (a : α) (l₂ : List α) :
    ∀ l₁ : List α, (l₁ ++ a :: l₂).get? l₁.length = some a := by
  intro l₁
  induction l₁ with
  | nil => rfl
  | cons x xs ih => simpa using ih

lemma set_append_length {α : Type} (a b : α) (l₂ : List α) :
    ∀ l₁ : List α, (l₁ ++ a :: l₂).set l₁.length b = l₁ ++ b :: l₂ := by
  intro l₁
  induction l₁ with
  | nil => rfl
  | cons x xs ih => simp [ih]

lemma capture_windows_length (live : Nat → Bool) :
    ∀ (l : List Window) (k : Nat),
    (capture_windows live k l).length =
      (l.filter (fun w => live w.id)).length := by
  intro l
  induction l with
  | nil => intro k; rfl
  | cons w rest ih =>
    intro k
    by_cases hl : live w.id = true
    · simp [capture_windows, hl, List.filter_cons, ih]
    · rw [Bool.not_eq_true] at hl
      simp [capture_windows, hl, List.filter_cons, ih]

lemma apply_capture_windows (live : Nat → Bool) :
    ∀ (suffix done : List Window) (stats : BindingApplicationStats),
    apply_windows live (done ++ suffix) stats
        (capture_windows live done.length suffix) =
      (done ++ suffix.map
          (fun w => if live w.id then { w with valid := true } else w),
        { stats with restored := stats.restored +
            (suffix.filter (fun w => live w.id)).length }) := by
  intro suffix
  induction suffix with
  | nil => intro done stats; rfl
  | cons w rest ih =>
    intro done stats
    by_cases hl : live w.id = true
    · rw [show capture_windows live done.length (w :: rest) =
          ⟨done.length, w.title, w.id⟩ ::
            capture_windows live (done.length + 1) rest from
        by simp [capture_windows, hl]]
      unfold apply_windows
      have hone : apply_one live (done ++ w :: rest) stats
          ⟨done.length, w.title, w.id⟩ =
          ((done ++ w :: rest).set done.length
              { w with id := w.id, valid := true },
            { stats with restored := stats.restored + 1 }) := by
        have hfind : find_window_idx (done ++ w :: rest)
            ⟨done.length, w.title, w.id⟩ = some done.length := by
          unfold find_window_idx
          rw [get?_append_length]
          dsimp only
          rw [if_pos rfl]
        unfold apply_one
        rw [hfind]
        dsimp only
        rw [get?_append_length]
        dsimp only
        rw [if_pos hl]
      dsimp only
      rw [hone]
      rw [set_append_length]
      have hstep := ih (done ++ [{ w with id := w.id, valid := true }])
        { stats with restored := stats.restored + 1 }
      rw [List.length_append, List.append_assoc] at hstep
      simp only [List.length_cons, List.length_nil, List.singleton_append]
        at hstep
      rw [hstep]
      simp [List.filter_cons, hl, List.append_assoc]
      omega
    · rw [Bool.not_eq_true] at hl
      rw [show capture_windows live done.length (w :: rest) =
          capture_windows live (done.length + 1) rest from
        by simp [capture_windows, hl]]
      have hstep := ih (done ++ [w]) stats
      rw [List.length_append, List.append_assoc] at hstep
      simp only [List.length_cons, List.length_nil, List.singleton_append]
        at hstep
      rw [hstep]
      simp only [List.map_cons, List.filter_cons, hl,
        List.append_assoc, List.singleton_append]
      rfl

lemma no_live_map_id (live : Nat → Bool) (l : List Window)
    (h : ∀ w ∈ l, live w.id = false) :
    l.map (fun w => if live w.id then { w with valid := true } else w) =
      l := by
  induction l with
  | nil => rfl
  | cons w rest ih =>
    simp [h w (by simp), ih (fun v hv => h v (by simp [hv]))]

lemma apply_capture_workspaces (live : Nat → Bool) :
    ∀ (suffix done : List Workspace) (stats : BindingApplicationStats),
    apply_snapshots live (done ++ suffix) stats
        (capture_workspaces live done.length suffix).1 =
      (done ++ suffix.map (revalidate live),
        { stats with restored := stats.restored +
            (capture_workspaces live done.length suffix).2 }) := by
  intro suffix
  induction suffix with
  | nil => intro done stats; rfl
  | cons ws rest ih =>
    intro done stats
    by_cases hwin : (capture_windows live 0 ws.windows).isEmpty = true
    · rw [show (capture_workspaces live done.length (ws :: rest)).1 =
          (capture_workspaces live (done.length + 1) rest).1 from by
        simp [capture_workspaces, hwin]]
      have hwnil : capture_windows live 0 ws.windows = [] :=
        List.isEmpty_iff.mp hwin
      have hcnt : (capture_workspaces live done.length (ws :: rest)).2 =
          (capture_workspaces live (done.length + 1) rest).2 := by
        simp [capture_workspaces, hwnil]
      have hstep := ih (done ++ [ws]) stats
      rw [List.length_append, List.append_assoc] at hstep
      simp only [List.length_cons, List.length_nil,
        List.singleton_append] at hstep
      rw [hstep, hcnt]
      have hnone : ∀ w ∈ ws.windows, live w.id = false := by
        have hlen := capture_windows_length live ws.windows 0
        rw [hwnil] at hlen
        have hfil := List.length_eq_zero.mp hlen.symm
        intro w hw
        have := List.filter_eq_nil_iff.mp hfil w hw
        simpa using this
      have hws_id : revalidate live ws = ws := by
        unfold revalidate
        rw [no_live_map_id live ws.windows hnone]
      rw [List.map_cons, hws_id]
      simp [List.append_assoc]
    · rw [Bool.not_eq_true] at hwin
      rw [show (capture_workspaces live done.length (ws :: rest)).1 =
          ⟨done.length, ws.name, capture_windows live 0 ws.windows⟩ ::
            (capture_workspaces live (done.length + 1) rest).1 from by
        simp [capture_workspaces, hwin]]
      unfold apply_snapshots
      dsimp only
      have hsnap : apply_snapshot live (done ++ ws :: rest) stats
          ⟨done.length, ws.name, capture_windows live 0 ws.windows⟩ =
          (done ++ revalidate live ws :: rest,
            { stats with restored := stats.restored +
                (ws.windows.filter (fun w => live w.id)).length }) := by
        have hfind : find_workspace_idx (done ++ ws :: rest)
            ⟨done.length, ws.name, capture_windows live 0 ws.windows⟩ =
            some done.length := by
          unfold find_workspace_idx
          rw [get?_append_length]
          dsimp only
          rw [if_pos rfl]
          rfl
        unfold apply_snapshot
        rw [hfind]
        dsimp only
        rw [get?_append_length]
        dsimp only
        have happ := apply_capture_windows live ws.windows [] stats
        simp only [List.nil_append, List.length_nil] at happ
        rw [happ]
        dsimp only
        rw [set_append_length]
        rfl
      rw [hsnap]
      have hstep := ih (done ++ [revalidate live ws])
        { stats with restored := stats.restored +
            (ws.windows.filter (fun w => live w.id)).length }
      rw [List.length_append, List.append_assoc] at hstep
      simp only [List.length_cons, List.length_nil,
        List.singleton_append] at hstep
      rw [hstep]
      have hcnt : (capture_workspaces live done.length (ws :: rest)).2 =
          (capture_windows live 0 ws.windows).length +
            (capture_workspaces live (done.length + 1) rest).2 := by
        simp [capture_workspaces]
      rw [List.map_cons, hcnt, capture_windows_length]
      simp [List.append_assoc]
      try omega

/-- C3: capture-then-apply round trip on an unmodified workspace list
with unchanged liveness: `apply_window_bindings` on the snapshots that
`save_window_bindings` produced sets `valid := true` on every captured
(live) window entry, leaves everything else untouched, and returns stats
with `restored` equal to the number of live windows captured and
`invalidated = unmatched = 0`. -/
theorem capture_apply_round_trip (live : Nat → Bool)
    (workspaces : List Workspace) :
    apply_window_bindings live workspaces
        (save_window_bindings live workspaces).1 =
      (workspaces.map (revalidate live),
        ⟨(save_window_bindings live workspaces).2, 0, 0⟩) := by
  have h := apply_capture_workspaces live workspaces [] ⟨0, 0, 0⟩
  simp only [List.nil_append, List.length_nil] at h
  unfold apply_window_bindings save_window_bindings
  rw [h]
  simp

end MultiManager
